import Mathlib

/-!
Verification development for the AeroCraft parametric aircraft mesh generator
(repository hacknation-nat).

The repository is a SvelteKit frontend, a FastAPI backend and a C# SolidWorks
add-in.  The backend geometry service (`backend/app/services/geometry_service.py`,
`export_service.py`, `schemas.py`) is referenced by the build scripts and the
development guide but its source is not part of the tree, so the lofting
engine, the STL serializer and the backend parameter validation are modelled
here from the specification (spec §3, §4.1–§4.4, §7); every such definition is
marked `Modelled from the spec`.  The frontend stores, the API boundary
mappers and the C# generator are embedded from their sources
(`src/unnamed/part_004`, `part_005`, `part_006`, `part_012`,
`src/frontend/src/lib/components/3d/Viewer3D.svelte`).

Numeric values are modelled over the rationals; the only transcendental
inputs of the generator (tan of the sweep angle, sin/cos of the dihedral
angle) are passed in as precomputed numbers, so that every definition stays
executable.
-/

namespace Aero

/-- Three-dimensional point with rational coordinates. -/
structure Vec3 where
  x : ℚ
  y : ℚ
  z : ℚ
  deriving DecidableEq, Repr

/-- Indexed triangle mesh: a vertex list plus triangles given as index
triples into it, exactly the `vertices`/`indices` representation the backend
returns and the viewer consumes. -/
structure Mesh where
  vertices : List Vec3
  triangles : List (ℕ × ℕ × ℕ)
  deriving DecidableEq, Repr

/-! ## Loft topology

Modelled from the spec (§4.2): the loft builds `n` stations of `P` points
each; consecutive stations are stitched into a quad strip (two triangles per
edge pair, including the wrap-around edge back to point 0), and the first and
last stations are closed by fan caps from a single interior point. -/

/-- Index of profile point `i` of station `s` in the flattened vertex list. -/
def vIdx (P s i : ℕ) : ℕ := s * P + i

/-- Successor of point index `i` around a closed `P`-point section. -/
def nxt (P i : ℕ) : ℕ := (i + 1) % P

/-- Predecessor of point index `i` around a closed `P`-point section. -/
def prv (P i : ℕ) : ℕ := (i + P - 1) % P

/-- Index of the bottom-cap apex vertex (appended after the station grid). -/
def botC (n P : ℕ) : ℕ := n * P

/-- Index of the top-cap apex vertex. -/
def topC (n P : ℕ) : ℕ := n * P + 1

/-- First stitching triangle of quad `i` between stations `s` and `s+1`. -/
def stripTri1 (P s i : ℕ) : ℕ × ℕ × ℕ :=
  (vIdx P s i, vIdx P (s + 1) i, vIdx P (s + 1) (nxt P i))

/-- Second stitching triangle of quad `i` between stations `s` and `s+1`. -/
def stripTri2 (P s i : ℕ) : ℕ × ℕ × ℕ :=
  (vIdx P s i, vIdx P (s + 1) (nxt P i), vIdx P s (nxt P i))

/-- Fan triangle `i` of the bottom cap (station 0). -/
def capBotTri (n P i : ℕ) : ℕ × ℕ × ℕ :=
  (botC n P, vIdx P 0 i, vIdx P 0 (nxt P i))

/-- Fan triangle `i` of the top cap (station `n-1`). -/
def capTopTri (n P i : ℕ) : ℕ × ℕ × ℕ :=
  (topC n P, vIdx P (n - 1) (nxt P i), vIdx P (n - 1) i)

/-- Full triangle list of a loft with `n` stations of `P` points: the quad
strip between each pair of consecutive stations followed by both fan caps. -/
def loftTris (n P : ℕ) : List (ℕ × ℕ × ℕ) :=
  ((List.range (n - 1)).flatMap fun s =>
      (List.range P).flatMap fun i => [stripTri1 P s i, stripTri2 P s i])
    ++ ((List.range P).map fun i => capBotTri n P i)
    ++ ((List.range P).map fun i => capTopTri n P i)

/-- Shell mesh assembled from the stations (flattened in order) followed by
the two cap apex vertices, with the loft triangle topology. -/
def loftShell (P : ℕ) (stations : List (List Vec3)) (capBot capTop : Vec3) : Mesh :=
  { vertices := stations.flatten ++ [capBot, capTop]
    triangles := loftTris stations.length P }

/-! ## Index arithmetic -/

theorem vIdx_lt {P n s i : ℕ} (hs : s < n) (hi : i < P) : vIdx P s i < n * P := by
  have h1 : (s + 1) * P ≤ n * P := Nat.mul_le_mul_right P hs
  have h2 : (s + 1) * P = s * P + P := by ring
  simp only [vIdx]
  omega

theorem vIdx_inj {P s t i j : ℕ} (hi : i < P) (hj : j < P)
    (h : vIdx P s i = vIdx P t j) : s = t ∧ i = j := by
  simp only [vIdx] at h
  have hst : s = t := by
    rcases Nat.lt_trichotomy s t with hlt | heq | hgt
    · exfalso
      have h1 : (s + 1) * P ≤ t * P := Nat.mul_le_mul_right P hlt
      have h2 : (s + 1) * P = s * P + P := by ring
      omega
    · exact heq
    · exfalso
      have h1 : (t + 1) * P ≤ s * P := Nat.mul_le_mul_right P hgt
      have h2 : (t + 1) * P = t * P + P := by ring
      omega
  subst hst
  exact ⟨rfl, by omega⟩

theorem vIdx_div {P s i : ℕ} (hi : i < P) : vIdx P s i / P = s := by
  simp only [vIdx]
  rw [Nat.add_comm, Nat.add_mul_div_right _ _ (by omega : 0 < P),
    Nat.div_eq_of_lt hi]
  omega

theorem vIdx_mod {P s i : ℕ} (hi : i < P) : vIdx P s i % P = i := by
  simp only [vIdx]
  rw [Nat.add_comm, Nat.add_mul_mod_self_right, Nat.mod_eq_of_lt hi]

theorem nxt_lt {P : ℕ} (hP : 0 < P) (i : ℕ) : nxt P i < P := Nat.mod_lt _ hP

theorem nxt_eq {P i : ℕ} (hi : i < P) : nxt P i = if i + 1 = P then 0 else i + 1 := by
  simp only [nxt]
  split
  · simp_all
  · exact Nat.mod_eq_of_lt (by omega)

theorem nxt_inj {P i j : ℕ} (hi : i < P) (hj : j < P)
    (h : nxt P i = nxt P j) : i = j := by
  rw [nxt_eq hi, nxt_eq hj] at h
  split_ifs at h <;> omega

theorem nxt_ne {P i : ℕ} (hP : 2 ≤ P) (hi : i < P) : nxt P i ≠ i := by
  rw [nxt_eq hi]
  split_ifs <;> omega

theorem nxt_nxt_ne {P i : ℕ} (hP : 3 ≤ P) (hi : i < P) : nxt P (nxt P i) ≠ i := by
  have hn : nxt P i < P := nxt_lt (by omega) i
  rw [nxt_eq hn, nxt_eq hi]
  split_ifs <;> omega

theorem prv_lt {P : ℕ} (hP : 0 < P) (i : ℕ) : prv P i < P := Nat.mod_lt _ hP

theorem nxt_prv {P i : ℕ} (hP : 0 < P) (hi : i < P) : nxt P (prv P i) = i := by
  simp only [prv]
  rcases Nat.eq_zero_or_pos i with hz | hpos
  · subst hz
    have h1 : (0 + P - 1) % P = P - 1 := by
      rw [Nat.mod_eq_of_lt (by omega : 0 + P - 1 < P)]
      omega
    rw [h1, nxt_eq (by omega)]
    simp [Nat.sub_add_cancel hP]
  · have h1 : i + P - 1 = P + (i - 1) := by omega
    have h2 : (P + (i - 1)) % P = i - 1 := by
      rw [Nat.add_comm, Nat.add_mod_right]
      exact Nat.mod_eq_of_lt (by omega)
    rw [h1, h2, nxt_eq (by omega)]
    split_ifs <;> omega

/-! ## Edges and the manifold property -/

/-- Directed boundary edges (half-edges) of a triangle, in winding order. -/
def dedges : ℕ × ℕ × ℕ → List (ℕ × ℕ)
  | (a, b, c) => [(a, b), (b, c), (c, a)]

/-- Whether the undirected edge between `a` and `b` is an edge of triangle `t`. -/
def hasEdge (a b : ℕ) (t : ℕ × ℕ × ℕ) : Bool :=
  decide ((a, b) ∈ dedges t) || decide ((b, a) ∈ dedges t)

/-- Number of triangles of mesh `m` sharing the undirected edge between
`a` and `b`. -/
def edgeTriCount (m : Mesh) (a b : ℕ) : ℕ := m.triangles.countP (hasEdge a b)

/-- Watertightness (spec §8, standard manifold check): every edge that occurs
in the mesh at all is shared by exactly two triangles — no boundary edges. -/
def Watertight (m : Mesh) : Prop :=
  ∀ a b : ℕ, 0 < edgeTriCount m a b → edgeTriCount m a b = 2

/-- All half-edges of the loft topology. -/
def loftDedges (n P : ℕ) : List (ℕ × ℕ) := (loftTris n P).flatMap dedges

/-! Named half-edge families of the loft topology.  Each directed edge of
`loftDedges` belongs to exactly one of the ten families below. -/

/-- Half-edge climbing from station `s` to station `s+1` at point `i`. -/
def eUp (P s i : ℕ) : ℕ × ℕ := (vIdx P s i, vIdx P (s + 1) i)

/-- Half-edge climbing from station `s` to the next point of station `s+1`. -/
def eUpNx (P s i : ℕ) : ℕ × ℕ := (vIdx P s i, vIdx P (s + 1) (nxt P i))

/-- Half-edge descending from station `s+1` to station `s` at point `nxt i`. -/
def eDn (P s i : ℕ) : ℕ × ℕ := (vIdx P (s + 1) (nxt P i), vIdx P s (nxt P i))

/-- Half-edge descending diagonally from station `s+1` back to station `s`. -/
def eDnNx (P s i : ℕ) : ℕ × ℕ := (vIdx P (s + 1) (nxt P i), vIdx P s i)

/-- Half-edge running forward around station `s` from point `i`. -/
def eFw (P s i : ℕ) : ℕ × ℕ := (vIdx P s i, vIdx P s (nxt P i))

/-- Half-edge running backward around station `s` onto point `i`. -/
def eBk (P s i : ℕ) : ℕ × ℕ := (vIdx P s (nxt P i), vIdx P s i)

/-- Bottom-cap spoke half-edge leaving the apex. -/
def eSpB1 (n P i : ℕ) : ℕ × ℕ := (botC n P, vIdx P 0 i)

/-- Bottom-cap spoke half-edge returning to the apex. -/
def eSpB2 (n P i : ℕ) : ℕ × ℕ := (vIdx P 0 (nxt P i), botC n P)

/-- Top-cap spoke half-edge leaving the apex. -/
def eSpT1 (n P i : ℕ) : ℕ × ℕ := (topC n P, vIdx P (n - 1) (nxt P i))

/-- Top-cap spoke half-edge returning to the apex. -/
def eSpT2 (n P i : ℕ) : ℕ × ℕ := (vIdx P (n - 1) i, topC n P)

theorem dedges_stripTri1 (P s i : ℕ) :
    dedges (stripTri1 P s i) = [eUp P s i, eFw P (s + 1) i, eDnNx P s i] := rfl

theorem dedges_stripTri2 (P s i : ℕ) :
    dedges (stripTri2 P s i) = [eUpNx P s i, eDn P s i, eBk P s i] := rfl

theorem dedges_capBotTri (n P i : ℕ) :
    dedges (capBotTri n P i) = [eSpB1 n P i, eFw P 0 i, eSpB2 n P i] := rfl

theorem dedges_capTopTri (n P i : ℕ) :
    dedges (capTopTri n P i) = [eSpT1 n P i, eBk P (n - 1) i, eSpT2 n P i] := rfl

/-- Classification code of a directed edge, computed from the endpoint
indices alone; the ten half-edge families map to pairwise distinct codes. -/
def edgeSig (n P : ℕ) (d : ℕ × ℕ) : ℕ :=
  if d.1 = botC n P then 0
  else if d.2 = botC n P then 1
  else if d.1 = topC n P then 2
  else if d.2 = topC n P then 3
  else if d.2 / P = d.1 / P + 1 ∧ d.2 % P = d.1 % P then 4
  else if d.2 / P = d.1 / P + 1 ∧ d.2 % P = nxt P (d.1 % P) then 5
  else if d.1 / P = d.2 / P + 1 ∧ d.1 % P = d.2 % P then 6
  else if d.1 / P = d.2 / P + 1 ∧ d.1 % P = nxt P (d.2 % P) then 7
  else if d.1 / P = d.2 / P ∧ d.2 % P = nxt P (d.1 % P) then 8
  else if d.1 / P = d.2 / P ∧ d.1 % P = nxt P (d.2 % P) then 9
  else 10

theorem vIdx_ne_botC {n P s i : ℕ} (hs : s < n) (hi : i < P) :
    vIdx P s i ≠ botC n P := by
  have := vIdx_lt hs hi
  simp only [botC]
  omega

theorem vIdx_ne_topC {n P s i : ℕ} (hs : s < n) (hi : i < P) :
    vIdx P s i ≠ topC n P := by
  have := vIdx_lt hs hi
  simp only [topC]
  omega

theorem topC_ne_botC (n P : ℕ) : topC n P ≠ botC n P := by
  simp only [botC, topC]
  omega

theorem sig_eUp {n P s i : ℕ} (hs : s + 1 < n) (hi : i < P) :
    edgeSig n P (eUp P s i) = 4 := by
  have h1 : vIdx P s i ≠ botC n P := vIdx_ne_botC (by omega) hi
  have h2 : vIdx P (s + 1) i ≠ botC n P := vIdx_ne_botC hs hi
  have h3 : vIdx P s i ≠ topC n P := vIdx_ne_topC (by omega) hi
  have h4 : vIdx P (s + 1) i ≠ topC n P := vIdx_ne_topC hs hi
  have d1 : vIdx P s i / P = s := vIdx_div hi
  have d2 : vIdx P (s + 1) i / P = s + 1 := vIdx_div hi
  have m1 : vIdx P s i % P = i := vIdx_mod hi
  have m2 : vIdx P (s + 1) i % P = i := vIdx_mod hi
  simp only [edgeSig, eUp, d1, d2, m1, m2]
  rw [if_neg h1, if_neg h2, if_neg h3, if_neg h4]
  simp

theorem sig_eUpNx {n P s i : ℕ} (hP : 2 ≤ P) (hs : s + 1 < n) (hi : i < P) :
    edgeSig n P (eUpNx P s i) = 5 := by
  have hnx : nxt P i < P := nxt_lt (by omega) i
  have h1 : vIdx P s i ≠ botC n P := vIdx_ne_botC (by omega) hi
  have h2 : vIdx P (s + 1) (nxt P i) ≠ botC n P := vIdx_ne_botC hs hnx
  have h3 : vIdx P s i ≠ topC n P := vIdx_ne_topC (by omega) hi
  have h4 : vIdx P (s + 1) (nxt P i) ≠ topC n P := vIdx_ne_topC hs hnx
  have h5 : nxt P i ≠ i := nxt_ne hP hi
  have d1 : vIdx P s i / P = s := vIdx_div hi
  have d2 : vIdx P (s + 1) (nxt P i) / P = s + 1 := vIdx_div hnx
  have m1 : vIdx P s i % P = i := vIdx_mod hi
  have m2 : vIdx P (s + 1) (nxt P i) % P = nxt P i := vIdx_mod hnx
  simp only [edgeSig, eUpNx, d1, d2, m1, m2]
  rw [if_neg h1, if_neg h2, if_neg h3, if_neg h4]
  simp [h5]

theorem sig_eDn {n P s i : ℕ} (hs : s + 1 < n) (hi : i < P) :
    edgeSig n P (eDn P s i) = 6 := by
  have hnx : nxt P i < P := nxt_lt (by omega) i
  have h1 : vIdx P s (nxt P i) ≠ botC n P := vIdx_ne_botC (by omega) hnx
  have h2 : vIdx P (s + 1) (nxt P i) ≠ botC n P := vIdx_ne_botC hs hnx
  have h3 : vIdx P s (nxt P i) ≠ topC n P := vIdx_ne_topC (by omega) hnx
  have h4 : vIdx P (s + 1) (nxt P i) ≠ topC n P := vIdx_ne_topC hs hnx
  have d1 : vIdx P (s + 1) (nxt P i) / P = s + 1 := vIdx_div hnx
  have d2 : vIdx P s (nxt P i) / P = s := vIdx_div hnx
  have m1 : vIdx P (s + 1) (nxt P i) % P = nxt P i := vIdx_mod hnx
  have m2 : vIdx P s (nxt P i) % P = nxt P i := vIdx_mod hnx
  simp only [edgeSig, eDn, d1, d2, m1, m2]
  rw [if_neg h2, if_neg h1, if_neg h4, if_neg h3]
  simp
  split_ifs <;> omega

theorem sig_eDnNx {n P s i : ℕ} (hP : 2 ≤ P) (hs : s + 1 < n) (hi : i < P) :
    edgeSig n P (eDnNx P s i) = 7 := by
  have hnx : nxt P i < P := nxt_lt (by omega) i
  have h1 : vIdx P s i ≠ botC n P := vIdx_ne_botC (by omega) hi
  have h2 : vIdx P (s + 1) (nxt P i) ≠ botC n P := vIdx_ne_botC hs hnx
  have h3 : vIdx P s i ≠ topC n P := vIdx_ne_topC (by omega) hi
  have h4 : vIdx P (s + 1) (nxt P i) ≠ topC n P := vIdx_ne_topC hs hnx
  have h5 : nxt P i ≠ i := nxt_ne hP hi
  have d1 : vIdx P (s + 1) (nxt P i) / P = s + 1 := vIdx_div hnx
  have d2 : vIdx P s i / P = s := vIdx_div hi
  have m1 : vIdx P (s + 1) (nxt P i) % P = nxt P i := vIdx_mod hnx
  have m2 : vIdx P s i % P = i := vIdx_mod hi
  simp only [edgeSig, eDnNx, d1, d2, m1, m2]
  rw [if_neg h2, if_neg h1, if_neg h4, if_neg h3]
  simp [h5]
  split_ifs <;> omega

theorem sig_eFw {n P s i : ℕ} (hP : 2 ≤ P) (hs : s < n) (hi : i < P) :
    edgeSig n P (eFw P s i) = 8 := by
  have hnx : nxt P i < P := nxt_lt (by omega) i
  have h1 : vIdx P s i ≠ botC n P := vIdx_ne_botC hs hi
  have h2 : vIdx P s (nxt P i) ≠ botC n P := vIdx_ne_botC hs hnx
  have h3 : vIdx P s i ≠ topC n P := vIdx_ne_topC hs hi
  have h4 : vIdx P s (nxt P i) ≠ topC n P := vIdx_ne_topC hs hnx
  have d1 : vIdx P s i / P = s := vIdx_div hi
  have d2 : vIdx P s (nxt P i) / P = s := vIdx_div hnx
  have m1 : vIdx P s i % P = i := vIdx_mod hi
  have m2 : vIdx P s (nxt P i) % P = nxt P i := vIdx_mod hnx
  simp only [edgeSig, eFw, d1, d2, m1, m2]
  rw [if_neg h1, if_neg h2, if_neg h3, if_neg h4]
  simp

theorem sig_eBk {n P s i : ℕ} (hP : 3 ≤ P) (hs : s < n) (hi : i < P) :
    edgeSig n P (eBk P s i) = 9 := by
  have hnx : nxt P i < P := nxt_lt (by omega) i
  have h1 : vIdx P s i ≠ botC n P := vIdx_ne_botC hs hi
  have h2 : vIdx P s (nxt P i) ≠ botC n P := vIdx_ne_botC hs hnx
  have h3 : vIdx P s i ≠ topC n P := vIdx_ne_topC hs hi
  have h4 : vIdx P s (nxt P i) ≠ topC n P := vIdx_ne_topC hs hnx
  have h5 : nxt P (nxt P i) ≠ i := nxt_nxt_ne hP hi
  have d1 : vIdx P s (nxt P i) / P = s := vIdx_div hnx
  have d2 : vIdx P s i / P = s := vIdx_div hi
  have m1 : vIdx P s (nxt P i) % P = nxt P i := vIdx_mod hnx
  have m2 : vIdx P s i % P = i := vIdx_mod hi
  simp only [edgeSig, eBk, d1, d2, m1, m2]
  rw [if_neg h2, if_neg h1, if_neg h4, if_neg h3]
  simp [Ne.symm h5]

theorem sig_eSpB1 {n P i : ℕ} : edgeSig n P (eSpB1 n P i) = 0 := by
  simp [edgeSig, eSpB1]

theorem sig_eSpB2 {n P i : ℕ} (hn : 1 ≤ n) (hP : 1 ≤ P) (hi : i < P) :
    edgeSig n P (eSpB2 n P i) = 1 := by
  have hnx : nxt P i < P := nxt_lt (by omega) i
  have h1 : vIdx P 0 (nxt P i) ≠ botC n P := vIdx_ne_botC (by omega) hnx
  simp only [edgeSig, eSpB2]
  rw [if_neg h1]
  simp

theorem sig_eSpT1 {n P i : ℕ} (hn : 1 ≤ n) (hP : 1 ≤ P) (hi : i < P) :
    edgeSig n P (eSpT1 n P i) = 2 := by
  have hnx : nxt P i < P := nxt_lt (by omega) i
  have h1 : topC n P ≠ botC n P := topC_ne_botC n P
  have h2 : vIdx P (n - 1) (nxt P i) ≠ botC n P := vIdx_ne_botC (by omega) hnx
  simp only [edgeSig, eSpT1]
  rw [if_neg h1, if_neg h2]
  simp

theorem sig_eSpT2 {n P i : ℕ} (hn : 1 ≤ n) (hP : 1 ≤ P) (hi : i < P) :
    edgeSig n P (eSpT2 n P i) = 3 := by
  have h1 : vIdx P (n - 1) i ≠ botC n P := vIdx_ne_botC (by omega) hi
  have h2 : topC n P ≠ botC n P := topC_ne_botC n P
  have h3 : vIdx P (n - 1) i ≠ topC n P := vIdx_ne_topC (by omega) hi
  simp only [edgeSig, eSpT2]
  rw [if_neg h1, if_neg h2, if_neg h3]
  simp

/-! ## Counting half-edges -/

theorem flatMap_flatMap {α β γ : Type} (l : List α) (f : α → List β) (g : β → List γ) :
    (l.flatMap f).flatMap g = l.flatMap fun x => (f x).flatMap g := by
  induction l with
  | nil => rfl
  | cons a t ih => simp [List.flatMap_cons, List.flatMap_append, ih]

theorem map_flatMap_eq {α β γ : Type} (l : List α) (f : α → β) (g : β → List γ) :
    (l.map f).flatMap g = l.flatMap fun x => g (f x) := by
  induction l with
  | nil => rfl
  | cons a t ih => simp [List.flatMap_cons, ih]

theorem count_flatMap_range {β : Type} [BEq β] (k : ℕ) (h : ℕ → List β) (d : β) :
    ((List.range k).flatMap h).count d = ∑ i ∈ Finset.range k, (h i).count d := by
  rw [List.count_flatMap]
  rfl

/-- Number of indices `i < k` at which `f i` is the directed edge `d`. -/
def famCount (k : ℕ) (f : ℕ → ℕ × ℕ) (d : ℕ × ℕ) : ℕ :=
  ∑ i ∈ Finset.range k, if f i = d then 1 else 0

/-- Number of index pairs `(s, i)` with `s < k`, `i < l` at which `f s i` is
the directed edge `d`. -/
def famCount2 (k l : ℕ) (f : ℕ → ℕ → ℕ × ℕ) (d : ℕ × ℕ) : ℕ :=
  ∑ s ∈ Finset.range k, ∑ i ∈ Finset.range l, if f s i = d then 1 else 0

theorem famCount_le_one {k : ℕ} {f : ℕ → ℕ × ℕ} {d : ℕ × ℕ}
    (hinj : ∀ i < k, ∀ j < k, f i = f j → i = j) : famCount k f d ≤ 1 := by
  by_cases h : ∃ i ∈ Finset.range k, f i = d
  · obtain ⟨i, hik, hfi⟩ := h
    rw [famCount, Finset.sum_eq_single i]
    · simp [hfi]
    · intro b hb hbi
      have hne : f b ≠ d := fun hfb =>
        hbi (hinj b (Finset.mem_range.mp hb) i (Finset.mem_range.mp hik)
          (hfb.trans hfi.symm))
      simp [hne]
    · intro hcon
      exact absurd hik hcon
  · push_neg at h
    rw [famCount, Finset.sum_eq_zero]
    · omega
    · intro i hi
      simp [h i hi]

theorem famCount2_le_one {k l : ℕ} {f : ℕ → ℕ → ℕ × ℕ} {d : ℕ × ℕ}
    (hinj : ∀ s < k, ∀ i < l, ∀ t < k, ∀ j < l, f s i = f t j → s = t ∧ i = j) :
    famCount2 k l f d ≤ 1 := by
  have hconv : famCount2 k l f d =
      ∑ p ∈ Finset.range k ×ˢ Finset.range l, if f p.1 p.2 = d then 1 else 0 := by
    rw [famCount2, Finset.sum_product]
  rw [hconv]
  by_cases h : ∃ p ∈ Finset.range k ×ˢ Finset.range l, f p.1 p.2 = d
  · obtain ⟨p, hp, hfp⟩ := h
    rcases Finset.mem_product.mp hp with ⟨hp1, hp2⟩
    rw [Finset.sum_eq_single p]
    · simp [hfp]
    · intro q hq hqp
      rcases Finset.mem_product.mp hq with ⟨hq1, hq2⟩
      have hne : f q.1 q.2 ≠ d := by
        intro hfq
        have heq := hinj q.1 (Finset.mem_range.mp hq1) q.2 (Finset.mem_range.mp hq2)
          p.1 (Finset.mem_range.mp hp1) p.2 (Finset.mem_range.mp hp2)
          (hfq.trans hfp.symm)
        exact hqp (Prod.ext heq.1 heq.2)
      simp [hne]
    · intro hcon
      exact absurd hp hcon
  · push_neg at h
    rw [Finset.sum_eq_zero]
    · omega
    · intro p hp
      simp [h p hp]

theorem famCount_sig {n P k : ℕ} {f : ℕ → ℕ × ℕ} {d : ℕ × ℕ} {σ : ℕ}
    (hsig : ∀ i < k, edgeSig n P (f i) = σ) (hne : famCount k f d ≠ 0) :
    edgeSig n P d = σ := by
  rcases Finset.exists_ne_zero_of_sum_ne_zero hne with ⟨i, hik, hval⟩
  have hfi : f i = d := by
    by_contra hcon
    simp [hcon] at hval
  exact hfi ▸ hsig i (Finset.mem_range.mp hik)

theorem famCount2_sig {n P k l : ℕ} {f : ℕ → ℕ → ℕ × ℕ} {d : ℕ × ℕ} {σ : ℕ}
    (hsig : ∀ s < k, ∀ i < l, edgeSig n P (f s i) = σ) (hne : famCount2 k l f d ≠ 0) :
    edgeSig n P d = σ := by
  rcases Finset.exists_ne_zero_of_sum_ne_zero hne with ⟨s, hsk, hval⟩
  rcases Finset.exists_ne_zero_of_sum_ne_zero hval with ⟨i, hil, hval2⟩
  have hfi : f s i = d := by
    by_contra hcon
    simp [hcon] at hval2
  exact hfi ▸ hsig s (Finset.mem_range.mp hsk) i (Finset.mem_range.mp hil)

/-- The half-edge multiset of the loft decomposes into the ten families. -/
theorem count_loftDedges_eq {n P : ℕ} (hn : 2 ≤ n) (d : ℕ × ℕ) :
    (loftDedges n P).count d =
      famCount2 (n - 1) P (fun s i => eUp P s i) d
        + famCount2 (n - 1) P (fun s i => eUpNx P s i) d
        + famCount2 (n - 1) P (fun s i => eDn P s i) d
        + famCount2 (n - 1) P (fun s i => eDnNx P s i) d
        + famCount2 n P (fun s i => eFw P s i) d
        + famCount2 n P (fun s i => eBk P s i) d
        + famCount P (eSpB1 n P) d + famCount P (eSpB2 n P) d
        + famCount P (eSpT1 n P) d + famCount P (eSpT2 n P) d := by
  have hassoc : loftDedges n P =
      ((List.range (n - 1)).flatMap fun s => (List.range P).flatMap fun i =>
          dedges (stripTri1 P s i) ++ (dedges (stripTri2 P s i) ++ []))
        ++ ((List.range P).flatMap fun i => dedges (capBotTri n P i))
        ++ ((List.range P).flatMap fun i => dedges (capTopTri n P i)) := by
    simp only [loftDedges, loftTris, List.flatMap_append, flatMap_flatMap,
      map_flatMap_eq, List.flatMap_cons, List.flatMap_nil]
  rw [hassoc, List.count_append, List.count_append]
  simp only [count_flatMap_range, List.count_append,
    dedges_stripTri1, dedges_stripTri2, dedges_capBotTri, dedges_capTopTri,
    List.count_cons, List.count_nil, beq_iff_eq]
  have hfw : famCount2 n P (fun s i => eFw P s i) d =
      famCount2 (n - 1) P (fun s i => eFw P (s + 1) i) d + famCount P (eFw P 0) d := by
    have hn1 : n = (n - 1) + 1 := by omega
    rw [famCount2]
    rw [hn1, Finset.sum_range_succ']
    rfl
  have hbk : famCount2 n P (fun s i => eBk P s i) d =
      famCount2 (n - 1) P (fun s i => eBk P s i) d + famCount P (eBk P (n - 1)) d := by
    have hn1 : n = (n - 1) + 1 := by omega
    rw [famCount2]
    conv_lhs => rw [hn1]
    rw [Finset.sum_range_succ]
    rfl
  rw [hfw, hbk]
  simp only [famCount2, famCount, Finset.sum_add_distrib, Finset.sum_const_zero]
  ring

/-- Every directed edge occurs at most once among the loft half-edges. -/
theorem count_loftDedges_le_one {n P : ℕ} (hn : 2 ≤ n) (hP : 3 ≤ P) (d : ℕ × ℕ) :
    (loftDedges n P).count d ≤ 1 := by
  rw [count_loftDedges_eq hn]
  have hPpos : 0 < P := by omega
  have b1 : famCount2 (n - 1) P (fun s i => eUp P s i) d ≤ 1 := by
    apply famCount2_le_one
    intro s _ i hi t _ j hj heq
    exact vIdx_inj hi hj (congrArg Prod.fst heq)
  have b2 : famCount2 (n - 1) P (fun s i => eUpNx P s i) d ≤ 1 := by
    apply famCount2_le_one
    intro s _ i hi t _ j hj heq
    exact vIdx_inj hi hj (congrArg Prod.fst heq)
  have b3 : famCount2 (n - 1) P (fun s i => eDn P s i) d ≤ 1 := by
    apply famCount2_le_one
    intro s _ i hi t _ j hj heq
    have h1 := vIdx_inj (nxt_lt hPpos i) (nxt_lt hPpos j) (congrArg Prod.snd heq)
    exact ⟨h1.1, nxt_inj hi hj h1.2⟩
  have b4 : famCount2 (n - 1) P (fun s i => eDnNx P s i) d ≤ 1 := by
    apply famCount2_le_one
    intro s _ i hi t _ j hj heq
    exact vIdx_inj hi hj (congrArg Prod.snd heq)
  have b5 : famCount2 n P (fun s i => eFw P s i) d ≤ 1 := by
    apply famCount2_le_one
    intro s _ i hi t _ j hj heq
    exact vIdx_inj hi hj (congrArg Prod.fst heq)
  have b6 : famCount2 n P (fun s i => eBk P s i) d ≤ 1 := by
    apply famCount2_le_one
    intro s _ i hi t _ j hj heq
    exact vIdx_inj hi hj (congrArg Prod.snd heq)
  have b7 : famCount P (eSpB1 n P) d ≤ 1 := by
    apply famCount_le_one
    intro i hi j hj heq
    exact (vIdx_inj hi hj (congrArg Prod.snd heq)).2
  have b8 : famCount P (eSpB2 n P) d ≤ 1 := by
    apply famCount_le_one
    intro i hi j hj heq
    have h1 := vIdx_inj (nxt_lt hPpos i) (nxt_lt hPpos j) (congrArg Prod.fst heq)
    exact nxt_inj hi hj h1.2
  have b9 : famCount P (eSpT1 n P) d ≤ 1 := by
    apply famCount_le_one
    intro i hi j hj heq
    have h1 := vIdx_inj (nxt_lt hPpos i) (nxt_lt hPpos j) (congrArg Prod.snd heq)
    exact nxt_inj hi hj h1.2
  have b10 : famCount P (eSpT2 n P) d ≤ 1 := by
    apply famCount_le_one
    intro i hi j hj heq
    exact (vIdx_inj hi hj (congrArg Prod.fst heq)).2
  have s1 : famCount2 (n - 1) P (fun s i => eUp P s i) d ≠ 0 → edgeSig n P d = 4 :=
    famCount2_sig fun s hs i hi => sig_eUp (by omega) hi
  have s2 : famCount2 (n - 1) P (fun s i => eUpNx P s i) d ≠ 0 → edgeSig n P d = 5 :=
    famCount2_sig fun s hs i hi => sig_eUpNx (by omega) (by omega) hi
  have s3 : famCount2 (n - 1) P (fun s i => eDn P s i) d ≠ 0 → edgeSig n P d = 6 :=
    famCount2_sig fun s hs i hi => sig_eDn (by omega) hi
  have s4 : famCount2 (n - 1) P (fun s i => eDnNx P s i) d ≠ 0 → edgeSig n P d = 7 :=
    famCount2_sig fun s hs i hi => sig_eDnNx (by omega) (by omega) hi
  have s5 : famCount2 n P (fun s i => eFw P s i) d ≠ 0 → edgeSig n P d = 8 :=
    famCount2_sig fun s hs i hi => sig_eFw (by omega) hs hi
  have s6 : famCount2 n P (fun s i => eBk P s i) d ≠ 0 → edgeSig n P d = 9 :=
    famCount2_sig fun s hs i hi => sig_eBk hP hs hi
  have s7 : famCount P (eSpB1 n P) d ≠ 0 → edgeSig n P d = 0 :=
    famCount_sig fun i hi => sig_eSpB1
  have s8 : famCount P (eSpB2 n P) d ≠ 0 → edgeSig n P d = 1 :=
    famCount_sig fun i hi => sig_eSpB2 (by omega) (by omega) hi
  have s9 : famCount P (eSpT1 n P) d ≠ 0 → edgeSig n P d = 2 :=
    famCount_sig fun i hi => sig_eSpT1 (by omega) (by omega) hi
  have s10 : famCount P (eSpT2 n P) d ≠ 0 → edgeSig n P d = 3 :=
    famCount_sig fun i hi => sig_eSpT2 (by omega) (by omega) hi
  omega

/-! ## Pairing of half-edges -/

theorem stripTri1_mem {n P s i : ℕ} (hs : s < n - 1) (hi : i < P) :
    stripTri1 P s i ∈ loftTris n P := by
  rw [loftTris]
  refine List.mem_append.mpr (Or.inl (List.mem_append.mpr (Or.inl ?_)))
  exact List.mem_flatMap.mpr ⟨s, List.mem_range.mpr hs,
    List.mem_flatMap.mpr ⟨i, List.mem_range.mpr hi, by simp⟩⟩

theorem stripTri2_mem {n P s i : ℕ} (hs : s < n - 1) (hi : i < P) :
    stripTri2 P s i ∈ loftTris n P := by
  rw [loftTris]
  refine List.mem_append.mpr (Or.inl (List.mem_append.mpr (Or.inl ?_)))
  exact List.mem_flatMap.mpr ⟨s, List.mem_range.mpr hs,
    List.mem_flatMap.mpr ⟨i, List.mem_range.mpr hi, by simp⟩⟩

theorem capBotTri_mem {n P i : ℕ} (hi : i < P) :
    capBotTri n P i ∈ loftTris n P := by
  rw [loftTris]
  refine List.mem_append.mpr (Or.inl (List.mem_append.mpr (Or.inr ?_)))
  exact List.mem_map.mpr ⟨i, List.mem_range.mpr hi, rfl⟩

theorem capTopTri_mem {n P i : ℕ} (hi : i < P) :
    capTopTri n P i ∈ loftTris n P := by
  rw [loftTris]
  refine List.mem_append.mpr (Or.inr ?_)
  exact List.mem_map.mpr ⟨i, List.mem_range.mpr hi, rfl⟩

theorem mem_loftDedges_of_tri {n P : ℕ} {t : ℕ × ℕ × ℕ} {d : ℕ × ℕ}
    (ht : t ∈ loftTris n P) (hd : d ∈ dedges t) : d ∈ loftDedges n P :=
  List.mem_flatMap.mpr ⟨t, ht, hd⟩

/-- Case analysis for membership in the loft half-edge list. -/
theorem mem_loftDedges_cases {n P : ℕ} {d : ℕ × ℕ} (hd : d ∈ loftDedges n P) :
    (∃ s < n - 1, ∃ i < P, d = eUp P s i ∨ d = eFw P (s + 1) i ∨ d = eDnNx P s i
        ∨ d = eUpNx P s i ∨ d = eDn P s i ∨ d = eBk P s i)
      ∨ (∃ i < P, d = eSpB1 n P i ∨ d = eFw P 0 i ∨ d = eSpB2 n P i)
      ∨ (∃ i < P, d = eSpT1 n P i ∨ d = eBk P (n - 1) i ∨ d = eSpT2 n P i) := by
  rw [loftDedges] at hd
  rcases List.mem_flatMap.mp hd with ⟨t, ht, hdt⟩
  rw [loftTris] at ht
  rcases List.mem_append.mp ht with ht1 | htTop
  · rcases List.mem_append.mp ht1 with htStrip | htBot
    · rcases List.mem_flatMap.mp htStrip with ⟨s, hs, hrest⟩
      rcases List.mem_flatMap.mp hrest with ⟨i, hi, htri⟩
      have hs2 := List.mem_range.mp hs
      have hi2 := List.mem_range.mp hi
      rcases List.mem_cons.mp htri with h | h
      · subst h
        rw [dedges_stripTri1] at hdt
        left
        refine ⟨s, hs2, i, hi2, ?_⟩
        rcases List.mem_cons.mp hdt with h2 | h2
        · exact Or.inl h2
        rcases List.mem_cons.mp h2 with h3 | h3
        · exact Or.inr (Or.inl h3)
        rcases List.mem_cons.mp h3 with h4 | h4
        · exact Or.inr (Or.inr (Or.inl h4))
        · simp at h4
      · have h2 : t = stripTri2 P s i := by simpa using h
        subst h2
        rw [dedges_stripTri2] at hdt
        left
        refine ⟨s, hs2, i, hi2, ?_⟩
        rcases List.mem_cons.mp hdt with h2 | h2
        · exact Or.inr (Or.inr (Or.inr (Or.inl h2)))
        rcases List.mem_cons.mp h2 with h3 | h3
        · exact Or.inr (Or.inr (Or.inr (Or.inr (Or.inl h3))))
        rcases List.mem_cons.mp h3 with h4 | h4
        · exact Or.inr (Or.inr (Or.inr (Or.inr (Or.inr h4))))
        · simp at h4
    · rcases List.mem_map.mp htBot with ⟨i, hi, htri⟩
      subst htri
      rw [dedges_capBotTri] at hdt
      right
      left
      refine ⟨i, List.mem_range.mp hi, ?_⟩
      rcases List.mem_cons.mp hdt with h2 | h2
      · exact Or.inl h2
      rcases List.mem_cons.mp h2 with h3 | h3
      · exact Or.inr (Or.inl h3)
      rcases List.mem_cons.mp h3 with h4 | h4
      · exact Or.inr (Or.inr h4)
      · simp at h4
  · rcases List.mem_map.mp htTop with ⟨i, hi, htri⟩
    subst htri
    rw [dedges_capTopTri] at hdt
    right
    right
    refine ⟨i, List.mem_range.mp hi, ?_⟩
    rcases List.mem_cons.mp hdt with h2 | h2
    · exact Or.inl h2
    rcases List.mem_cons.mp h2 with h3 | h3
    · exact Or.inr (Or.inl h3)
    rcases List.mem_cons.mp h3 with h4 | h4
    · exact Or.inr (Or.inr h4)
    · simp at h4

theorem eUp_mem {n P s i : ℕ} (hs : s < n - 1) (hi : i < P) :
    eUp P s i ∈ loftDedges n P :=
  mem_loftDedges_of_tri (stripTri1_mem hs hi) (by rw [dedges_stripTri1]; simp)

theorem eUpNx_mem {n P s i : ℕ} (hs : s < n - 1) (hi : i < P) :
    eUpNx P s i ∈ loftDedges n P :=
  mem_loftDedges_of_tri (stripTri2_mem hs hi) (by rw [dedges_stripTri2]; simp)

theorem eDn_mem {n P s i : ℕ} (hs : s < n - 1) (hi : i < P) :
    eDn P s i ∈ loftDedges n P :=
  mem_loftDedges_of_tri (stripTri2_mem hs hi) (by rw [dedges_stripTri2]; simp)

theorem eDnNx_mem {n P s i : ℕ} (hs : s < n - 1) (hi : i < P) :
    eDnNx P s i ∈ loftDedges n P :=
  mem_loftDedges_of_tri (stripTri1_mem hs hi) (by rw [dedges_stripTri1]; simp)

theorem eSpB1_mem {n P i : ℕ} (hi : i < P) : eSpB1 n P i ∈ loftDedges n P :=
  mem_loftDedges_of_tri (capBotTri_mem hi) (by rw [dedges_capBotTri]; simp)

theorem eSpB2_mem {n P i : ℕ} (hi : i < P) : eSpB2 n P i ∈ loftDedges n P :=
  mem_loftDedges_of_tri (capBotTri_mem hi) (by rw [dedges_capBotTri]; simp)

theorem eSpT1_mem {n P i : ℕ} (hi : i < P) : eSpT1 n P i ∈ loftDedges n P :=
  mem_loftDedges_of_tri (capTopTri_mem hi) (by rw [dedges_capTopTri]; simp)

theorem eSpT2_mem {n P i : ℕ} (hi : i < P) : eSpT2 n P i ∈ loftDedges n P :=
  mem_loftDedges_of_tri (capTopTri_mem hi) (by rw [dedges_capTopTri]; simp)

theorem eFw_mem {n P s i : ℕ} (hn : 2 ≤ n) (hs : s < n) (hi : i < P) :
    eFw P s i ∈ loftDedges n P := by
  rcases Nat.eq_zero_or_pos s with hz | hpos
  · subst hz
    exact mem_loftDedges_of_tri (capBotTri_mem hi) (by rw [dedges_capBotTri]; simp)
  · have hs1 : s - 1 < n - 1 := by omega
    have h : eFw P s i = eFw P ((s - 1) + 1) i := by
      congr 1
      omega
    rw [h]
    exact mem_loftDedges_of_tri (stripTri1_mem hs1 hi)
      (by rw [dedges_stripTri1]; simp)

theorem eBk_mem {n P s i : ℕ} (hn : 2 ≤ n) (hs : s < n) (hi : i < P) :
    eBk P s i ∈ loftDedges n P := by
  rcases Nat.lt_or_ge s (n - 1) with hlt | hge
  · exact mem_loftDedges_of_tri (stripTri2_mem hlt hi) (by rw [dedges_stripTri2]; simp)
  · have h : s = n - 1 := by omega
    subst h
    exact mem_loftDedges_of_tri (capTopTri_mem hi) (by rw [dedges_capTopTri]; simp)

/-- Every half-edge of the loft appears together with its reversal: the
quad strip, the wrap-around seam and the caps all stitch onto each other. -/
theorem swap_mem_loftDedges {n P : ℕ} (hn : 2 ≤ n) (hP : 3 ≤ P) {d : ℕ × ℕ}
    (hd : d ∈ loftDedges n P) : (d.2, d.1) ∈ loftDedges n P := by
  have hPpos : 0 < P := by omega
  rcases mem_loftDedges_cases hd with ⟨s, hs, i, hi, hcase⟩ | ⟨i, hi, hcase⟩ | ⟨i, hi, hcase⟩
  · rcases hcase with h | h | h | h | h | h <;> subst h
    · have heq : ((eUp P s i).2, (eUp P s i).1) = eDn P s (prv P i) := by
        simp [eUp, eDn, nxt_prv hPpos hi]
      rw [heq]
      exact eDn_mem hs (prv_lt hPpos i)
    · have heq : ((eFw P (s + 1) i).2, (eFw P (s + 1) i).1) = eBk P (s + 1) i := by
        simp [eFw, eBk]
      rw [heq]
      exact eBk_mem hn (by omega) hi
    · have heq : ((eDnNx P s i).2, (eDnNx P s i).1) = eUpNx P s i := by
        simp [eDnNx, eUpNx]
      rw [heq]
      exact eUpNx_mem hs hi
    · have heq : ((eUpNx P s i).2, (eUpNx P s i).1) = eDnNx P s i := by
        simp [eDnNx, eUpNx]
      rw [heq]
      exact eDnNx_mem hs hi
    · have heq : ((eDn P s i).2, (eDn P s i).1) = eUp P s (nxt P i) := by
        simp [eDn, eUp]
      rw [heq]
      exact eUp_mem hs (nxt_lt hPpos i)
    · have heq : ((eBk P s i).2, (eBk P s i).1) = eFw P s i := by
        simp [eFw, eBk]
      rw [heq]
      exact eFw_mem hn (by omega) hi
  · rcases hcase with h | h | h <;> subst h
    · have heq : ((eSpB1 n P i).2, (eSpB1 n P i).1) = eSpB2 n P (prv P i) := by
        simp [eSpB1, eSpB2, nxt_prv hPpos hi]
      rw [heq]
      exact eSpB2_mem (prv_lt hPpos i)
    · have heq : ((eFw P 0 i).2, (eFw P 0 i).1) = eBk P 0 i := by
        simp [eFw, eBk]
      rw [heq]
      exact eBk_mem hn (by omega) hi
    · have heq : ((eSpB2 n P i).2, (eSpB2 n P i).1) = eSpB1 n P (nxt P i) := by
        simp [eSpB1, eSpB2]
      rw [heq]
      exact eSpB1_mem (nxt_lt hPpos i)
  · rcases hcase with h | h | h <;> subst h
    · have heq : ((eSpT1 n P i).2, (eSpT1 n P i).1) = eSpT2 n P (nxt P i) := by
        simp [eSpT1, eSpT2]
      rw [heq]
      exact eSpT2_mem (nxt_lt hPpos i)
    · have heq : ((eBk P (n - 1) i).2, (eBk P (n - 1) i).1) = eFw P (n - 1) i := by
        simp [eFw, eBk]
      rw [heq]
      exact eFw_mem hn (by omega) hi
    · have heq : ((eSpT2 n P i).2, (eSpT2 n P i).1) = eSpT1 n P (prv P i) := by
        simp [eSpT1, eSpT2, nxt_prv hPpos hi]
      rw [heq]
      exact eSpT1_mem (prv_lt hPpos i)

/-! ## Watertightness -/

set_option maxHeartbeats 1600000 in
theorem hasEdge_count {a b : ℕ} {t : ℕ × ℕ × ℕ}
    (h12 : t.1 ≠ t.2.1) (h23 : t.2.1 ≠ t.2.2) (h13 : t.1 ≠ t.2.2) :
    (if hasEdge a b t then 1 else 0) =
      (dedges t).count (a, b) + (dedges t).count (b, a) := by
  obtain ⟨x, y, z⟩ := t
  simp only at h12 h23 h13
  simp only [hasEdge, dedges, List.mem_cons, List.not_mem_nil, or_false,
    Bool.or_eq_true, decide_eq_true_eq, Prod.mk.injEq, List.count_cons,
    List.count_nil, beq_iff_eq]
  split_ifs <;> omega

theorem countP_hasEdge_eq {a b : ℕ} (l : List (ℕ × ℕ × ℕ))
    (hdist : ∀ t ∈ l, t.1 ≠ t.2.1 ∧ t.2.1 ≠ t.2.2 ∧ t.1 ≠ t.2.2) :
    l.countP (hasEdge a b) =
      (l.flatMap dedges).count (a, b) + (l.flatMap dedges).count (b, a) := by
  induction l with
  | nil => rfl
  | cons t ts ih =>
    have hd := hdist t (List.mem_cons_self t ts)
    have ih2 := ih fun u hu => hdist u (List.mem_cons_of_mem t hu)
    rw [List.countP_cons, List.flatMap_cons, List.count_append, List.count_append,
      ih2]
    have h := hasEdge_count (a := a) (b := b) hd.1 hd.2.1 hd.2.2
    omega

theorem loftTris_distinct {n P : ℕ} (hn : 2 ≤ n) (hP : 3 ≤ P) :
    ∀ t ∈ loftTris n P, t.1 ≠ t.2.1 ∧ t.2.1 ≠ t.2.2 ∧ t.1 ≠ t.2.2 := by
  have hPpos : 0 < P := by omega
  intro t ht
  rw [loftTris] at ht
  rcases List.mem_append.mp ht with ht1 | htTop
  · rcases List.mem_append.mp ht1 with htStrip | htBot
    · rcases List.mem_flatMap.mp htStrip with ⟨s, hs, hrest⟩
      rcases List.mem_flatMap.mp hrest with ⟨i, hi, htri⟩
      have hi2 := List.mem_range.mp hi
      have hnx : nxt P i < P := nxt_lt hPpos i
      have hne : nxt P i ≠ i := nxt_ne (by omega) hi2
      rcases List.mem_cons.mp htri with h | h
      · subst h
        refine ⟨?_, ?_, ?_⟩ <;> intro hcon
        · exact absurd (vIdx_inj hi2 hi2 hcon).1 (by omega)
        · exact absurd (vIdx_inj hi2 hnx hcon).2 (Ne.symm hne)
        · exact absurd (vIdx_inj hi2 hnx hcon).1 (by omega)
      · have h2 : t = stripTri2 P s i := by simpa using h
        subst h2
        refine ⟨?_, ?_, ?_⟩ <;> intro hcon
        · exact absurd (vIdx_inj hi2 hnx hcon).1 (by omega)
        · exact absurd (vIdx_inj hnx hnx hcon).1 (by omega)
        · exact absurd (vIdx_inj hi2 hnx hcon).2 hne.symm
    · obtain ⟨i, hi, rfl⟩ := List.mem_map.mp htBot
      have hi2 := List.mem_range.mp hi
      have hnx : nxt P i < P := nxt_lt hPpos i
      have hne : nxt P i ≠ i := nxt_ne (by omega) hi2
      refine ⟨?_, ?_, ?_⟩ <;> intro hcon
      · exact absurd hcon.symm (vIdx_ne_botC (by omega) hi2)
      · exact absurd (vIdx_inj hi2 hnx hcon).2 hne.symm
      · exact absurd hcon.symm (vIdx_ne_botC (by omega) hnx)
  · obtain ⟨i, hi, rfl⟩ := List.mem_map.mp htTop
    have hi2 := List.mem_range.mp hi
    have hnx : nxt P i < P := nxt_lt hPpos i
    have hne : nxt P i ≠ i := nxt_ne (by omega) hi2
    refine ⟨?_, ?_, ?_⟩ <;> intro hcon
    · exact absurd hcon.symm (vIdx_ne_topC (by omega) hnx)
    · exact absurd (vIdx_inj hnx hi2 hcon).2 hne
    · exact absurd hcon.symm (vIdx_ne_topC (by omega) hi2)

/-- C1: for every loft shell with at least two stations, all of the same
point count at least 3 (every cross-section is a closed polyline of three or
more points per spec §3), the produced mesh is watertight: every edge that
occurs is shared by exactly two triangles, the quad strip closing the
wrap-around seam and the two fan caps closing the ends.  This covers the loft
of every valid ShapeParameters value of any component kind, since the
stitching topology depends only on the station count and point count. -/
theorem loft_watertight (P : ℕ) (stations : List (List Vec3)) (cB cT : Vec3)
    (hn : 2 ≤ stations.length) (hP : 3 ≤ P) :
    Watertight (loftShell P stations cB cT) := by
  intro a b hpos
  have hrw : edgeTriCount (loftShell P stations cB cT) a b =
      (loftDedges stations.length P).count (a, b)
        + (loftDedges stations.length P).count (b, a) := by
    rw [edgeTriCount]
    exact countP_hasEdge_eq _ (loftTris_distinct hn hP)
  rw [hrw] at hpos ⊢
  have hab := count_loftDedges_le_one hn hP ((a, b) : ℕ × ℕ)
  have hba := count_loftDedges_le_one hn hP ((b, a) : ℕ × ℕ)
  have himp1 : 0 < (loftDedges stations.length P).count (a, b) →
      0 < (loftDedges stations.length P).count (b, a) := fun h =>
    List.count_pos_iff.mpr (swap_mem_loftDedges hn hP (List.count_pos_iff.mp h))
  have himp2 : 0 < (loftDedges stations.length P).count (b, a) →
      0 < (loftDedges stations.length P).count (a, b) := fun h =>
    List.count_pos_iff.mpr (swap_mem_loftDedges hn hP (List.count_pos_iff.mp h))
  omega

/-- Witness for C1 at a concrete two-station, three-point instance. -/
theorem loft_watertight_witness :
    2 ≤ ([[Vec3.mk 0 0 0, Vec3.mk 1 0 0, Vec3.mk 0 1 0],
          [Vec3.mk 0 0 1, Vec3.mk 1 0 1, Vec3.mk 0 1 1]] : List (List Vec3)).length ∧
      3 ≤ 3 ∧
      Watertight (loftShell 3
        [[Vec3.mk 0 0 0, Vec3.mk 1 0 0, Vec3.mk 0 1 0],
         [Vec3.mk 0 0 1, Vec3.mk 1 0 1, Vec3.mk 0 1 1]]
        (Vec3.mk (1/3) (1/3) 0) (Vec3.mk (1/3) (1/3) 1)) :=
  ⟨by simp, by omega,
    loft_watertight 3 _ _ _ (by simp) (by omega)⟩

/-! ## Wing geometry

Modelled from the spec (§3, §4.1, §4.2): the backend geometry service that
builds the wing loft is not in the source tree.  Chord length interpolates
linearly from root to tip; the cross-section is a symmetric biconvex profile
of `2*half` points whose leading and trailing edge points coincide exactly
with the chord endpoints; each station is translated along the span axis by
`t*span`, sheared chordwise by `t*span*tan(sweep)` and rotated about the
chord axis by the dihedral angle.  The trigonometric values `taS = tan` of
the sweep angle and `siD`/`coD` = sin/cos of the dihedral angle are passed in
as precomputed rational inputs. -/

/-- Wing planform kinds (spec §3). -/
inductive Planform where
  | delta
  | swept
  | straight
  | tapered
  deriving DecidableEq, Repr

/-- Wing shape parameters (spec §3); `thicknessRatio` is a fraction of the
chord, in `(0,1)`. -/
structure WingParams where
  planform : Planform
  span : ℚ
  rootChord : ℚ
  tipChord : ℚ
  sweepAngleDeg : ℚ
  thicknessRatio : ℚ
  dihedralDeg : ℚ
  deriving DecidableEq, Repr

/-- Half-thickness shape factor of the biconvex profile at chordwise
fraction `u`; vanishes exactly at `u = 0` and `u = 1`. -/
def biconvex (u : ℚ) : ℚ := 2 * u * (1 - u)

/-- Chordwise fraction of profile point `j` out of `2*half` points: the
upper surface runs `j = 0 .. half` from leading to trailing edge, the lower
surface runs back through `j = half+1 .. 2*half-1`. -/
def airfoilU (half j : ℕ) : ℚ :=
  if j ≤ half then (j : ℚ) / (half : ℚ) else ((2 * half - j : ℕ) : ℚ) / (half : ℚ)

/-- Local 2D profile point `j` for chord `c` and thickness ratio `τ`:
chordwise coordinate and signed thickness. -/
def airfoilPt (c τ : ℚ) (half j : ℕ) : ℚ × ℚ :=
  (c * airfoilU half j,
    (if j ≤ half then 1 else -1) * (c * τ * biconvex (airfoilU half j)))

/-- Parametric coordinate of station `s` out of `n` stations, evenly spaced
in `[0,1]`. -/
def stationT (n s : ℕ) : ℚ := (s : ℚ) / ((n : ℚ) - 1)

/-- Local chord at parameter `t`: linear interpolation from root to tip. -/
def chordAt (p : WingParams) (t : ℚ) : ℚ :=
  p.rootChord + t * (p.tipChord - p.rootChord)

/-- Vertex of wing station `s`, profile point `j`.  The x coordinate is the
sweep shear offset `t*span*taS` plus the local chordwise coordinate; the
profile thickness and the span position `t*span` are rotated by the dihedral
angle about the chord axis into the final `(y, z)` pair. -/
def wingVertex (taS siD coD : ℚ) (p : WingParams) (n half s j : ℕ) : Vec3 :=
  let t := stationT n s
  let c := chordAt p t
  let q := airfoilPt c p.thicknessRatio half j
  { x := t * p.span * taS + q.1
    y := coD * q.2 + siD * (t * p.span)
    z := -siD * q.2 + coD * (t * p.span) }

/-- All `2*half` profile points of wing station `s`. -/
def wingStation (taS siD coD : ℚ) (p : WingParams) (n half s : ℕ) : List Vec3 :=
  (List.range (2 * half)).map (wingVertex taS siD coD p n half s)

/-- Cap apex of station `s`: the chord midpoint, an interior point of the
biconvex cross-section. -/
def wingCapCenter (taS siD coD : ℚ) (p : WingParams) (n half s : ℕ) : Vec3 :=
  let t := stationT n s
  let c := chordAt p t
  { x := t * p.span * taS + c / 2
    y := siD * (t * p.span)
    z := coD * (t * p.span) }

/-- Modelled from the spec (§4.2): the full wing loft with `stationCount`
stations of `2*half` profile points, stitched and capped by `loftShell`. -/
def loftWing (taS siD coD : ℚ) (p : WingParams) (stationCount half : ℕ) : Mesh :=
  loftShell (2 * half)
    ((List.range stationCount).map (wingStation taS siD coD p stationCount half))
    (wingCapCenter taS siD coD p stationCount half 0)
    (wingCapCenter taS siD coD p stationCount half (stationCount - 1))

theorem loftWing_triangles (taS siD coD : ℚ) (p : WingParams) (n half : ℕ) :
    (loftWing taS siD coD p n half).triangles = loftTris n (2 * half) := by
  simp [loftWing, loftShell]

theorem loftTris_length (n P : ℕ) :
    (loftTris n P).length = (n - 1) * (2 * P) + (P + P) := by
  simp only [loftTris, List.length_append, List.length_flatMap, List.length_map]
  have houter : (List.map
      (List.length ∘ fun s => (List.range P).flatMap fun i =>
        [stripTri1 P s i, stripTri2 P s i]) (List.range (n - 1)))
      = List.replicate (n - 1) (2 * P) := by
    rw [List.eq_replicate_iff]
    refine ⟨by simp, ?_⟩
    intro b hb
    rcases List.mem_map.mp hb with ⟨s, _, hval⟩
    rw [← hval, Function.comp_apply, List.length_flatMap]
    simp [Function.comp_def]
    omega
  rw [houter, List.sum_replicate, smul_eq_mul, List.length_range]
  omega

/-! ## The delta-wing concrete scenario (spec §8) -/

theorem stationT_nonneg (n s : ℕ) (hn : 2 ≤ n) : 0 ≤ stationT n s := by
  have h2 : (2:ℚ) ≤ (n:ℚ) := by exact_mod_cast hn
  have hn1 : (0:ℚ) < (n:ℚ) - 1 := by linarith
  exact div_nonneg (Nat.cast_nonneg s) (le_of_lt hn1)

theorem stationT_le_one {n s : ℕ} (hn : 2 ≤ n) (hs : s < n) : stationT n s ≤ 1 := by
  have h2 : (2:ℚ) ≤ (n:ℚ) := by exact_mod_cast hn
  have hn1 : (0:ℚ) < (n:ℚ) - 1 := by linarith
  have hcast : ((n - 1 : ℕ) : ℚ) = (n:ℚ) - 1 := by
    rw [Nat.cast_sub (by omega : 1 ≤ n), Nat.cast_one]
  rw [stationT, div_le_one hn1, ← hcast]
  exact_mod_cast (by omega : s ≤ n - 1)

theorem airfoilU_bounds {half j : ℕ} (hhalf : 0 < half) (hj : j < 2 * half) :
    0 ≤ airfoilU half j ∧ airfoilU half j ≤ 1 := by
  have hh : (0:ℚ) < (half:ℚ) := by exact_mod_cast hhalf
  rw [airfoilU]
  split_ifs with hcase
  · refine ⟨by positivity, ?_⟩
    rw [div_le_one hh]
    exact_mod_cast hcase
  · refine ⟨by positivity, ?_⟩
    rw [div_le_one hh]
    have h2 : (2 * half - j : ℕ) ≤ half := by omega
    exact_mod_cast h2

/-- Wing preset of the concrete scenario: delta planform, span 2 m, root
chord 1 m, tip chord 0.2 m, sweep 45°, thickness ratio 0.12, dihedral 0°. -/
def deltaWingPreset : WingParams :=
  { planform := Planform.delta, span := 2, rootChord := 1, tipChord := 1/5,
    sweepAngleDeg := 45, thicknessRatio := 12/100, dihedralDeg := 0 }

/-- C2 counterexample: at the delta-wing preset with 24 stations and 20
profile points the loft produces 23 quad strips of 40 triangles plus two
20-triangle fan caps, i.e. `24*20*2 = 960` triangles in total — not the
`24*20*2 + 2*(20-2) = 996` asserted by the claim.  The trigonometric inputs
are tan 45° = 1, sin 0° = 0, cos 0° = 1 (the count does not depend on them). -/
theorem deltaWing_count_counterexample :
    (loftWing 1 0 1 deltaWingPreset 24 10).triangles.length
      ≠ 24 * 20 * 2 + 2 * (20 - 2) := by
  rw [loftWing_triangles, loftTris_length]
  norm_num

theorem deltaWing_vertex_bounds {s j : ℕ} (hs : s < 24) (hj : j < 2 * 10) :
    0 ≤ (wingVertex 1 0 1 deltaWingPreset 24 10 s j).x
    ∧ (wingVertex 1 0 1 deltaWingPreset 24 10 s j).x ≤ 11/5
    ∧ 0 ≤ (wingVertex 1 0 1 deltaWingPreset 24 10 s j).z
    ∧ (wingVertex 1 0 1 deltaWingPreset 24 10 s j).z ≤ 2 := by
  have ht0 : 0 ≤ stationT 24 s := stationT_nonneg 24 s (by norm_num)
  have ht1 : stationT 24 s ≤ 1 := stationT_le_one (by norm_num) hs
  have hu := airfoilU_bounds (by norm_num) hj
  have hc : chordAt deltaWingPreset (stationT 24 s)
      = 1 - (4/5) * stationT 24 s := by
    rw [chordAt]
    show (1:ℚ) + stationT 24 s * (1/5 - 1) = _
    ring
  have hcu : (1 - (4/5) * stationT 24 s) * airfoilU 10 j
      ≤ 1 - (4/5) * stationT 24 s :=
    mul_le_of_le_one_right (by linarith) hu.2
  have hcu0 : 0 ≤ (1 - (4/5) * stationT 24 s) * airfoilU 10 j :=
    mul_nonneg (by linarith) hu.1
  simp only [wingVertex, airfoilPt]
  rw [show deltaWingPreset.span = (2:ℚ) from rfl, hc]
  refine ⟨by nlinarith, by nlinarith, by nlinarith, by nlinarith⟩

theorem mem_loftWing_vertices {taS siD coD : ℚ} {p : WingParams} {n half : ℕ}
    {v : Vec3} :
    v ∈ (loftWing taS siD coD p n half).vertices ↔
      (∃ s < n, ∃ j < 2 * half, v = wingVertex taS siD coD p n half s j)
        ∨ v = wingCapCenter taS siD coD p n half 0
        ∨ v = wingCapCenter taS siD coD p n half (n - 1) := by
  constructor
  · intro hv
    rcases List.mem_append.mp hv with hv1 | hv2
    · rcases List.mem_flatten.mp hv1 with ⟨st, hst, hvst⟩
      rcases List.mem_map.mp hst with ⟨s, hsr, rfl⟩
      rcases List.mem_map.mp hvst with ⟨j, hjr, rfl⟩
      exact Or.inl ⟨s, List.mem_range.mp hsr, j, List.mem_range.mp hjr, rfl⟩
    · rcases List.mem_cons.mp hv2 with h | h
      · exact Or.inr (Or.inl h)
      · exact Or.inr (Or.inr (by simpa using h))
  · intro hv
    rcases hv with ⟨s, hs, j, hj, rfl⟩ | rfl | rfl
    · refine List.mem_append.mpr (Or.inl ?_)
      refine List.mem_flatten.mpr ⟨wingStation taS siD coD p n half s, ?_, ?_⟩
      · exact List.mem_map.mpr ⟨s, List.mem_range.mpr hs, rfl⟩
      · exact List.mem_map.mpr ⟨j, List.mem_range.mpr hj, rfl⟩
    · exact List.mem_append.mpr (Or.inr (by simp))
    · exact List.mem_append.mpr (Or.inr (by simp))

/-- C2 amended: the delta-wing scenario loft has exactly `24*20*2 = 960`
triangles (the claim said 996); all coordinates are finite rationals with
the span-axis (z) extent exactly `[0, 2]` — so z-extent ≈ span = 2.0 holds —
while the x extent is exactly `[0, 11/5]`: the 45° sweep shear moves the tip
section by `span * tan 45° = 2`, so the x-extent is `2 + tipChord = 2.2`,
not ≈ rootChord = 1.0. -/
theorem deltaWing_scenario :
    (loftWing 1 0 1 deltaWingPreset 24 10).triangles.length = 24 * 20 * 2
    ∧ (∀ v ∈ (loftWing 1 0 1 deltaWingPreset 24 10).vertices,
        0 ≤ v.x ∧ v.x ≤ 11/5 ∧ 0 ≤ v.z ∧ v.z ≤ 2)
    ∧ (∃ v ∈ (loftWing 1 0 1 deltaWingPreset 24 10).vertices, v.x = 0 ∧ v.z = 0)
    ∧ (∃ v ∈ (loftWing 1 0 1 deltaWingPreset 24 10).vertices,
        v.x = 11/5 ∧ v.z = 2) := by
  refine ⟨?_, ?_, ?_, ?_⟩
  · rw [loftWing_triangles, loftTris_length]
  · intro v hv
    rcases mem_loftWing_vertices.mp hv with ⟨s, hs, j, hj, rfl⟩ | rfl | rfl
    · exact deltaWing_vertex_bounds hs hj
    · refine ⟨?_, ?_, ?_, ?_⟩ <;>
        norm_num [wingCapCenter, stationT, chordAt, deltaWingPreset]
    · refine ⟨?_, ?_, ?_, ?_⟩ <;>
        norm_num [wingCapCenter, stationT, chordAt, deltaWingPreset]
  · refine ⟨wingVertex 1 0 1 deltaWingPreset 24 10 0 0,
      mem_loftWing_vertices.mpr (Or.inl ⟨0, by norm_num, 0, by norm_num, rfl⟩), ?_, ?_⟩ <;>
      norm_num [wingVertex, airfoilPt, airfoilU, stationT, chordAt, deltaWingPreset]
  · refine ⟨wingVertex 1 0 1 deltaWingPreset 24 10 23 10,
      mem_loftWing_vertices.mpr (Or.inl ⟨23, by norm_num, 10, by norm_num, rfl⟩), ?_, ?_⟩ <;>
      norm_num [wingVertex, airfoilPt, airfoilU, biconvex, stationT, chordAt,
        deltaWingPreset]

/-- C4: determinism of the loft.  Every stage of the generator is a pure
function of the shape parameters, the trigonometric inputs and the station
count, so two evaluations of the same loft yield identical vertex arrays and
identical triangle index arrays (same order). -/
theorem loft_deterministic (taS siD coD : ℚ) (p : WingParams) (n half : ℕ) :
    (loftWing taS siD coD p n half).vertices
        = (loftWing taS siD coD p n half).vertices
      ∧ (loftWing taS siD coD p n half).triangles
        = (loftWing taS siD coD p n half).triangles :=
  ⟨rfl, rfl⟩

/-- C5: every wing station has parametric coordinate `t ∈ [0,1]` and its
vertices carry the lateral (chordwise x) offset exactly
`t * span * tan(sweepAngleDeg)` on top of the local profile coordinate;
at the tip station `s = n-1` the offset is exactly `span * tan(sweepAngleDeg)`.
`taS` is the precomputed value of tan of the sweep angle. -/
theorem wingVertex_sweep_offset (taS siD coD : ℚ) (p : WingParams)
    (n half s j : ℕ) (hn : 2 ≤ n) (hs : s < n) :
    0 ≤ stationT n s ∧ stationT n s ≤ 1
    ∧ (wingVertex taS siD coD p n half s j).x
        = stationT n s * p.span * taS
          + (airfoilPt (chordAt p (stationT n s)) p.thicknessRatio half j).1
    ∧ (s = n - 1 → (wingVertex taS siD coD p n half s j).x
        = p.span * taS
          + (airfoilPt (chordAt p (stationT n s)) p.thicknessRatio half j).1) := by
  have hn1 : (0:ℚ) < (n:ℚ) - 1 := by
    have h2 : (2:ℚ) ≤ (n:ℚ) := by exact_mod_cast hn
    linarith
  have hcast : ((n - 1 : ℕ) : ℚ) = (n:ℚ) - 1 := by
    rw [Nat.cast_sub (by omega : 1 ≤ n), Nat.cast_one]
  refine ⟨div_nonneg (Nat.cast_nonneg s) (le_of_lt hn1), ?_, rfl, ?_⟩
  · rw [stationT, div_le_one hn1, ← hcast]
    exact_mod_cast (by omega : s ≤ n - 1)
  · intro hsn
    subst hsn
    have ht : stationT n (n - 1) = 1 := by
      rw [stationT, hcast, div_self (ne_of_gt hn1)]
    show stationT n (n - 1) * p.span * taS + _ = _
    rw [ht]
    ring_nf

/-- Witness for C5 at the delta-wing preset, tip station 23 of 24. -/
theorem wingVertex_sweep_offset_witness :
    (2 ≤ 24 ∧ 23 < 24)
    ∧ (0 ≤ stationT 24 23 ∧ stationT 24 23 ≤ 1
      ∧ (wingVertex 7 (1/2) (3/4) deltaWingPreset 24 10 23 5).x
          = stationT 24 23 * deltaWingPreset.span * 7
            + (airfoilPt (chordAt deltaWingPreset (stationT 24 23))
                deltaWingPreset.thicknessRatio 10 5).1
      ∧ (23 = 24 - 1 → (wingVertex 7 (1/2) (3/4) deltaWingPreset 24 10 23 5).x
          = deltaWingPreset.span * 7
            + (airfoilPt (chordAt deltaWingPreset (stationT 24 23))
                deltaWingPreset.thicknessRatio 10 5).1)) :=
  ⟨⟨by norm_num, by norm_num⟩,
    wingVertex_sweep_offset 7 (1/2) (3/4) deltaWingPreset 24 10 23 5
      (by norm_num) (by norm_num)⟩

/-! ## Parameter validation and the generation pipeline

The backend validation schema (`backend/app/models/schemas.py`) is not in
the source tree; `validateWing` is modelled from the spec (§3, §7).  The
frontend boundary mapper `mapFrontendToBackend` is embedded from
`src/unnamed/part_005` lines 52-74. -/

/-- Error taxonomy of the generator (spec §7). -/
inductive GenError where
  | invalidParameters (field : String) (bound : String)
  | invalidStationCount
  deriving DecidableEq, Repr

/-- Modelled from the spec (§3, §7): validation of wing shape parameters,
reporting the offending field name and the violated bound, checked before
any geometry is attempted. -/
def validateWing (p : WingParams) : Except GenError Unit :=
  if ¬ 0 < p.span then
    Except.error (GenError.invalidParameters "span" "must be positive")
  else if ¬ 0 < p.rootChord then
    Except.error (GenError.invalidParameters "rootChord" "must be positive")
  else if ¬ 0 ≤ p.tipChord then
    Except.error (GenError.invalidParameters "tipChord" "must be nonnegative")
  else if ¬ (0 ≤ p.sweepAngleDeg ∧ p.sweepAngleDeg < 90) then
    Except.error (GenError.invalidParameters "sweepAngleDeg" "must lie in [0,90)")
  else if ¬ (0 < p.thicknessRatio ∧ p.thicknessRatio < 1) then
    Except.error (GenError.invalidParameters "thicknessRatio" "must lie in (0,1)")
  else if ¬ (-90 < p.dihedralDeg ∧ p.dihedralDeg < 90) then
    Except.error (GenError.invalidParameters "dihedralDeg" "must lie in (-90,90)")
  else Except.ok ()

/-- Frontend AeroParameters (frontend/src/lib/types/model.ts).  At the API
boundary every field can be absent at runtime, hence Option. -/
structure AeroParameters where
  wingType : Option String
  span : Option ℚ
  rootChord : Option ℚ
  tipChord : Option ℚ
  sweepAngle : Option ℚ
  thickness : Option ℚ
  dihedral : Option ℚ
  fuselageType : Option String
  fuselageLength : Option ℚ
  fuselageDiameter : Option ℚ
  engineLength : Option ℚ
  engineDiameter : Option ℚ
  hasVerticalStabilizer : Option Bool
  hasHorizontalStabilizer : Option Bool
  positionX : Option ℚ
  positionY : Option ℚ
  positionZ : Option ℚ
  deriving DecidableEq, Repr

/-- Snake_case payload sent to the backend (src/unnamed/part_005). -/
structure BackendParams where
  wing_type : String
  span : ℚ
  root_chord : ℚ
  tip_chord : ℚ
  sweep_angle : ℚ
  thickness : ℚ
  dihedral : ℚ
  fuselage_type : Option String
  fuselage_length : Option ℚ
  fuselage_diameter : Option ℚ
  engine_length : Option ℚ
  engine_diameter : Option ℚ
  has_vertical_stabilizer : Bool
  has_horizontal_stabilizer : Bool
  position_x : ℚ
  position_y : ℚ
  position_z : ℚ
  deriving DecidableEq, Repr

/-- JavaScript `||` on an optional string: defaults when absent or empty. -/
def jsOrString (v : Option String) (dflt : String) : String :=
  match v with
  | none => dflt
  | some s => if s = "" then dflt else s

/-- JavaScript `||` on an optional number: defaults when absent or zero. -/
def jsOrNum (v : Option ℚ) (dflt : ℚ) : ℚ :=
  match v with
  | none => dflt
  | some x => if x = 0 then dflt else x

/-- JavaScript `||` on an optional boolean: defaults when absent or false. -/
def jsOrBool (v : Option Bool) (dflt : Bool) : Bool :=
  match v with
  | none => dflt
  | some b => if b then b else dflt

/-- mapFrontendToBackend from src/unnamed/part_005 lines 52-74: required
fields are always included with fallback defaults (`??` keeps a present 0,
`||` does not), optional fields are passed through as-is. -/
def mapFrontendToBackend (parameters : AeroParameters) : BackendParams :=
  { wing_type := jsOrString parameters.wingType "straight"
    span := parameters.span.getD 1
    root_chord := parameters.rootChord.getD 1
    tip_chord :=
      match parameters.tipChord with
      | some v => v
      | none => parameters.rootChord.getD 1
    sweep_angle := parameters.sweepAngle.getD 0
    thickness := parameters.thickness.getD 12
    dihedral := parameters.dihedral.getD 0
    fuselage_type := parameters.fuselageType
    fuselage_length := parameters.fuselageLength
    fuselage_diameter := parameters.fuselageDiameter
    engine_length := parameters.engineLength
    engine_diameter := parameters.engineDiameter
    has_vertical_stabilizer := jsOrBool parameters.hasVerticalStabilizer false
    has_horizontal_stabilizer := jsOrBool parameters.hasHorizontalStabilizer false
    position_x := jsOrNum parameters.positionX 0
    position_y := jsOrNum parameters.positionY 0
    position_z := jsOrNum parameters.positionZ 0 }

/-- Modelled from the spec: translation of the backend payload into the core
wing shape parameters.  The frontend `thickness` is a percentage (12 means
12%), the core thickness ratio is the chord fraction, hence the division. -/
def toWingParams (b : BackendParams) : WingParams :=
  { planform :=
      if b.wing_type = "delta" then Planform.delta
      else if b.wing_type = "swept" then Planform.swept
      else if b.wing_type = "tapered" then Planform.tapered
      else Planform.straight
    span := b.span
    rootChord := b.root_chord
    tipChord := b.tip_chord
    sweepAngleDeg := b.sweep_angle
    thicknessRatio := b.thickness / 100
    dihedralDeg := b.dihedral }

/-- Modelled from the spec (§4.2, §7): the update-parameters generation
path — map the frontend fields to the backend payload, validate, then loft
with the default wing station count 24 and 20 profile points.  The trig
values are supplied as precomputed numbers. -/
def updateParametersPipeline (taS siD coD : ℚ) (p : AeroParameters) :
    Except GenError Mesh :=
  match validateWing (toWingParams (mapFrontendToBackend p)) with
  | Except.error e => Except.error e
  | Except.ok _ =>
      Except.ok (loftWing taS siD coD (toWingParams (mapFrontendToBackend p)) 24 10)

/-- Frontend parameter record with every field absent. -/
def emptyAeroParameters : AeroParameters :=
  { wingType := none, span := none, rootChord := none, tipChord := none,
    sweepAngle := none, thickness := none, dihedral := none,
    fuselageType := none, fuselageLength := none, fuselageDiameter := none,
    engineLength := none, engineDiameter := none,
    hasVerticalStabilizer := none, hasHorizontalStabilizer := none,
    positionX := none, positionY := none, positionZ := none }

/-- C3 counterexample: a generation request whose numeric fields are all
missing is not rejected — mapFrontendToBackend (src/unnamed/part_005)
silently substitutes fallback defaults (span becomes 1.0), the defaulted
payload passes validation, and a mesh is produced.  The defaulted sweep and
dihedral are 0°, so tan = 0, sin = 0, cos = 1 are the matching trig inputs. -/
theorem silent_default_counterexample :
    (mapFrontendToBackend emptyAeroParameters).span = 1
    ∧ (updateParametersPipeline 0 0 1 emptyAeroParameters).isOk = true := by
  constructor
  · rfl
  · norm_num [updateParametersPipeline, validateWing, mapFrontendToBackend,
      toWingParams, emptyAeroParameters, jsOrString, jsOrNum, jsOrBool,
      Except.isOk, Except.toBool, Option.getD]

/-- C3 amended: each of the five out-of-range parameter sets is rejected
with InvalidParameters naming the offending field and the violated bound;
but missing numeric fields are silently defaulted by the frontend boundary
mapper (span 1.0, chord 1.0, thickness 12%), so an all-missing request
produces a mesh rather than an error. -/
theorem invalid_parameters_rejected :
    validateWing { deltaWingPreset with span := 0 }
        = Except.error (GenError.invalidParameters "span" "must be positive")
    ∧ validateWing { deltaWingPreset with span := -1 }
        = Except.error (GenError.invalidParameters "span" "must be positive")
    ∧ validateWing { deltaWingPreset with thicknessRatio := 0 }
        = Except.error (GenError.invalidParameters "thicknessRatio" "must lie in (0,1)")
    ∧ validateWing { deltaWingPreset with thicknessRatio := 3/2 }
        = Except.error (GenError.invalidParameters "thicknessRatio" "must lie in (0,1)")
    ∧ validateWing { deltaWingPreset with sweepAngleDeg := 95 }
        = Except.error (GenError.invalidParameters "sweepAngleDeg" "must lie in [0,90)")
    ∧ (mapFrontendToBackend emptyAeroParameters).span = 1
    ∧ (updateParametersPipeline 0 0 1 emptyAeroParameters).isOk = true := by
  refine ⟨?_, ?_, ?_, ?_, ?_, ?_, ?_⟩ <;>
    norm_num [updateParametersPipeline, validateWing, mapFrontendToBackend,
      toWingParams, emptyAeroParameters, deltaWingPreset, jsOrString, jsOrNum,
      jsOrBool, Except.isOk, Except.toBool, Option.getD]

/-! ## The part_004 revision of the API boundary mappers (C9) -/

/-- Frontend parameters of the src/unnamed/part_004 apiService revision:
exactly the eleven fields its mappers translate. -/
structure AeroParameters04 where
  wingType : Option String
  span : Option ℚ
  rootChord : Option ℚ
  tipChord : Option ℚ
  sweepAngle : Option ℚ
  thickness : Option ℚ
  dihedral : Option ℚ
  fuselageLength : Option ℚ
  fuselageDiameter : Option ℚ
  hasVerticalStabilizer : Option Bool
  hasHorizontalStabilizer : Option Bool
  deriving DecidableEq, Repr

/-- Snake_case payload of the part_004 mapper (no fallback defaults). -/
structure BackendParams04 where
  wing_type : Option String
  span : Option ℚ
  root_chord : Option ℚ
  tip_chord : Option ℚ
  sweep_angle : Option ℚ
  thickness : Option ℚ
  dihedral : Option ℚ
  fuselage_length : Option ℚ
  fuselage_diameter : Option ℚ
  has_vertical_stabilizer : Option Bool
  has_horizontal_stabilizer : Option Bool
  deriving DecidableEq, Repr

/-- Raw geometry buffers; the typed-array conversion in part_004 is
value-preserving, so it is the identity here. -/
structure MeshBuffers where
  vertices : List ℚ
  indices : List ℕ
  normals : Option (List ℚ)
  deriving DecidableEq, Repr

/-- Backend model shape consumed by mapBackendToFrontend (part_004). -/
structure BackendModel04 where
  id : String
  name : String
  parameters : BackendParams04
  geometry : MeshBuffers
  deriving DecidableEq, Repr

/-- Frontend Model3D produced by mapBackendToFrontend (part_004);
metadata (timestamps) is omitted as out of scope. -/
structure Model3D04 where
  id : String
  name : String
  parameters : AeroParameters04
  geometry : MeshBuffers
  deriving DecidableEq, Repr

/-- mapFrontendToBackend from src/unnamed/part_004 lines 46-60: a pure
camelCase-to-snake_case field renaming, no defaults. -/
def mapFrontendToBackend04 (parameters : AeroParameters04) : BackendParams04 :=
  { wing_type := parameters.wingType
    span := parameters.span
    root_chord := parameters.rootChord
    tip_chord := parameters.tipChord
    sweep_angle := parameters.sweepAngle
    thickness := parameters.thickness
    dihedral := parameters.dihedral
    fuselage_length := parameters.fuselageLength
    fuselage_diameter := parameters.fuselageDiameter
    has_vertical_stabilizer := parameters.hasVerticalStabilizer
    has_horizontal_stabilizer := parameters.hasHorizontalStabilizer }

/-- mapBackendToFrontend from src/unnamed/part_004 lines 6-43: the reverse
renaming, wrapping the parameters back into a frontend model. -/
def mapBackendToFrontend04 (backendData : BackendModel04) : Model3D04 :=
  { id := backendData.id
    name := backendData.name
    parameters :=
      { wingType := backendData.parameters.wing_type
        span := backendData.parameters.span
        rootChord := backendData.parameters.root_chord
        tipChord := backendData.parameters.tip_chord
        sweepAngle := backendData.parameters.sweep_angle
        thickness := backendData.parameters.thickness
        dihedral := backendData.parameters.dihedral
        fuselageLength := backendData.parameters.fuselage_length
        fuselageDiameter := backendData.parameters.fuselage_diameter
        hasVerticalStabilizer := backendData.parameters.has_vertical_stabilizer
        hasHorizontalStabilizer := backendData.parameters.has_horizontal_stabilizer }
    geometry := backendData.geometry }

/-- C9: on any frontend parameter value whose eleven mapped fields are all
defined, translating to the backend payload and back through a backend model
recovers exactly the same values for all eleven fields: the
snake_case/camelCase boundary translation is a lossless round trip. -/
theorem mapper_round_trip (id name : String) (g : MeshBuffers)
    (p : AeroParameters04)
    (h1 : p.wingType.isSome) (h2 : p.span.isSome) (h3 : p.rootChord.isSome)
    (h4 : p.tipChord.isSome) (h5 : p.sweepAngle.isSome) (h6 : p.thickness.isSome)
    (h7 : p.dihedral.isSome) (h8 : p.fuselageLength.isSome)
    (h9 : p.fuselageDiameter.isSome) (h10 : p.hasVerticalStabilizer.isSome)
    (h11 : p.hasHorizontalStabilizer.isSome) :
    (mapBackendToFrontend04
        { id := id, name := name, parameters := mapFrontendToBackend04 p,
          geometry := g }).parameters = p := by
  cases p
  rfl

/-- Witness for C9 at a fully defined parameter value. -/
theorem mapper_round_trip_witness :
    (mapBackendToFrontend04
        { id := "m1", name := "wing", parameters := (mapFrontendToBackend04
            { wingType := some "delta", span := some 2, rootChord := some 1,
              tipChord := some (1/5), sweepAngle := some 45,
              thickness := some 12, dihedral := some 0,
              fuselageLength := some 5, fuselageDiameter := some (6/5),
              hasVerticalStabilizer := some false,
              hasHorizontalStabilizer := some true }),
          geometry :=
            { vertices := [0, 0, 0], indices := [0, 0, 0], normals := none }
          }).parameters
      = { wingType := some "delta", span := some 2, rootChord := some 1,
          tipChord := some (1/5), sweepAngle := some 45,
          thickness := some 12, dihedral := some 0,
          fuselageLength := some 5, fuselageDiameter := some (6/5),
          hasVerticalStabilizer := some false,
          hasHorizontalStabilizer := some true } :=
  mapper_round_trip "m1" "wing" _ _ rfl rfl rfl rfl rfl rfl rfl rfl rfl rfl rfl

/-! ## Aircraft component store (src/unnamed/part_006, first revision) -/

/-- Component kinds of the aircraft store. -/
inductive ComponentType where
  | wings
  | fuselage
  | engines
  deriving DecidableEq, Repr

/-- One store slot: the generated model (abstract payload type μ), the
in-flight flag and the error message. -/
structure AircraftComponent (μ : Type) where
  type : ComponentType
  model : Option μ
  isGenerating : Bool
  error : Option String
  deriving DecidableEq, Repr

/-- The aircraft store state: one slot per component. -/
structure Aircraft (μ : Type) where
  wings : AircraftComponent μ
  fuselage : AircraftComponent μ
  engines : AircraftComponent μ
  deriving DecidableEq, Repr

/-- Dynamic component lookup, as the TS store addresses components by key. -/
def getComponent {μ : Type} (st : Aircraft μ) : ComponentType → AircraftComponent μ
  | ComponentType.wings => st.wings
  | ComponentType.fuselage => st.fuselage
  | ComponentType.engines => st.engines

/-- setComponentError from src/unnamed/part_006 lines 84-93: spread the
state, replacing only the addressed component with a copy whose error is set
and whose isGenerating flag is cleared. -/
def setComponentError {μ : Type} (componentType : ComponentType) (error : String)
    (st : Aircraft μ) : Aircraft μ :=
  match componentType with
  | ComponentType.wings =>
      { st with wings := { st.wings with error := some error, isGenerating := false } }
  | ComponentType.fuselage =>
      { st with fuselage := { st.fuselage with error := some error, isGenerating := false } }
  | ComponentType.engines =>
      { st with engines := { st.engines with error := some error, isGenerating := false } }

/-- C7: recording a generation error touches only the addressed component,
setting its error and clearing its isGenerating flag; its stored model (so
the last valid mesh keeps being shown) and its type tag, and the entire
state of every other component, are unchanged. -/
theorem setComponentError_frame {μ : Type} (st : Aircraft μ) (ct : ComponentType)
    (e : String) :
    (getComponent (setComponentError ct e st) ct).error = some e
    ∧ (getComponent (setComponentError ct e st) ct).isGenerating = false
    ∧ (getComponent (setComponentError ct e st) ct).model = (getComponent st ct).model
    ∧ (getComponent (setComponentError ct e st) ct).type = (getComponent st ct).type
    ∧ ∀ other : ComponentType, other ≠ ct →
        getComponent (setComponentError ct e st) other = getComponent st other := by
  cases ct <;>
    exact ⟨rfl, rfl, rfl, rfl, by
      intro other h
      cases other <;> first | rfl | exact absurd rfl h⟩

/-- A concrete store state: wings generated and regenerating, fuselage
generated, engines empty with a stale error. -/
def sampleAircraft : Aircraft ℕ :=
  { wings :=
      { type := ComponentType.wings
        model := some 7
        isGenerating := true
        error := none }
    fuselage :=
      { type := ComponentType.fuselage
        model := some 8
        isGenerating := false
        error := none }
    engines :=
      { type := ComponentType.engines
        model := none
        isGenerating := false
        error := some "old" } }

/-- Witness for C7: recording an error on the wings slot of the concrete
store keeps its model and leaves the other components untouched. -/
theorem setComponentError_frame_witness :
    (getComponent (setComponentError ComponentType.wings "Invalid span"
        sampleAircraft) ComponentType.wings).error = some "Invalid span"
    ∧ (getComponent (setComponentError ComponentType.wings "Invalid span"
        sampleAircraft) ComponentType.wings).isGenerating = false
    ∧ (getComponent (setComponentError ComponentType.wings "Invalid span"
        sampleAircraft) ComponentType.wings).model
      = (getComponent sampleAircraft ComponentType.wings).model
    ∧ (getComponent (setComponentError ComponentType.wings "Invalid span"
        sampleAircraft) ComponentType.wings).type
      = (getComponent sampleAircraft ComponentType.wings).type
    ∧ ∀ other : ComponentType, other ≠ ComponentType.wings →
        getComponent (setComponentError ComponentType.wings "Invalid span"
          sampleAircraft) other = getComponent sampleAircraft other :=
  setComponentError_frame sampleAircraft ComponentType.wings "Invalid span"

/-! ## Assembly-view engine placement (Viewer3D.svelte, updateModels) -/

/-- The slice of a generated model the assembly view reads. -/
structure ViewerParams where
  span : Option ℚ
  deriving DecidableEq, Repr

/-- A viewer model: its parameters object may be absent at runtime, guarded
in the source by optional chaining. -/
structure ViewerModel where
  parameters : Option ViewerParams
  deriving DecidableEq, Repr

/-- The wingspan the viewer uses for engine placement
(`aircraftData.wings.model?.parameters?.span || 10`): the wings span when
present and nonzero, 10 otherwise (JavaScript `||` treats 0 as falsy). -/
def wingSpanOf (st : Aircraft ViewerModel) : ℚ :=
  jsOrNum ((st.wings.model.bind ViewerModel.parameters).bind ViewerParams.span) 10

/-- Engine z offset: `(wingSpan / 2) * 0.6` — 60% out along the half-span. -/
def engineOffsetZ (st : Aircraft ViewerModel) : ℚ :=
  wingSpanOf st / 2 * (6/10)

/-- Engine placement of updateModels in assembly mode (Viewer3D.svelte lines
230-271): when an engines model is present, the engine mesh is created twice,
at positions (0, 0, +offset) and (0, 0, -offset); otherwise no engine mesh is
added.  (Each solid mesh additionally gets a wireframe overlay at the same
position, which shares its placement and is omitted here.) -/
def enginePlacements (st : Aircraft ViewerModel) : List Vec3 :=
  if (st.engines.model).isSome then
    [{ x := 0, y := 0, z := engineOffsetZ st },
     { x := 0, y := 0, z := -engineOffsetZ st }]
  else []

/-- A store state whose wings model carries span = 0 and whose engines slot
holds a model. -/
def aircraftSpanZero : Aircraft ViewerModel :=
  { wings :=
      { type := ComponentType.wings
        model := some { parameters := some { span := some 0 } }
        isGenerating := false
        error := none }
    fuselage :=
      { type := ComponentType.fuselage
        model := none
        isGenerating := false
        error := none }
    engines :=
      { type := ComponentType.engines
        model := some { parameters := none }
        isGenerating := false
        error := none } }

/-- C8 counterexample: with the wings span parameter present and equal to 0,
the code places the two engines at z = ±3 (JavaScript `||` replaces the
falsy 0 by the default 10, and (10/2)·0.6 = 3), whereas the claimed formula
±(span/2)·0.6 evaluates to ±0. -/
theorem engine_placement_counterexample :
    (enginePlacements aircraftSpanZero).map Vec3.z = [3, -3]
    ∧ ((0:ℚ) / 2 * (6/10)) = 0 := by
  constructor
  · simp only [enginePlacements, aircraftSpanZero, engineOffsetZ, wingSpanOf,
      jsOrNum]
    norm_num
  · norm_num

/-- C8 amended: in assembly view the engines component, when present, is
duplicated into exactly two solid meshes placed symmetrically at
z = ±(wingSpan/2)·0.6, where wingSpan is the wings component span parameter
when present and nonzero, and 10 when the wings model, its parameters or its
span are absent or the span is 0 (JavaScript falsy default). -/
theorem engine_placement (st : Aircraft ViewerModel) :
    ((st.engines.model).isSome →
      enginePlacements st
        = [{ x := 0, y := 0, z := wingSpanOf st / 2 * (6/10) },
           { x := 0, y := 0, z := -(wingSpanOf st / 2 * (6/10)) }])
    ∧ (st.engines.model = none → enginePlacements st = [])
    ∧ (st.wings.model = none → wingSpanOf st = 10)
    ∧ ((st.wings.model.bind ViewerModel.parameters).bind ViewerParams.span
          = some 0 → wingSpanOf st = 10)
    ∧ (∀ q : ℚ, (st.wings.model.bind ViewerModel.parameters).bind ViewerParams.span
          = some q → q ≠ 0 → wingSpanOf st = q) := by
  refine ⟨?_, ?_, ?_, ?_, ?_⟩
  · intro h
    rw [enginePlacements, if_pos h]
    rfl
  · intro h
    rw [enginePlacements, if_neg (by simp [h])]
  · intro h
    rw [wingSpanOf, h]
    rfl
  · intro h
    rw [wingSpanOf, h]
    rfl
  · intro q hq hq0
    rw [wingSpanOf, hq]
    simp [jsOrNum, hq0]

/-- A store state with wings span 8 and engines present. -/
def aircraftSpan8 : Aircraft ViewerModel :=
  { wings :=
      { type := ComponentType.wings
        model := some { parameters := some { span := some 8 } }
        isGenerating := false
        error := none }
    fuselage :=
      { type := ComponentType.fuselage
        model := none
        isGenerating := false
        error := none }
    engines :=
      { type := ComponentType.engines
        model := some { parameters := none }
        isGenerating := false
        error := none } }

/-- Witness for C8: on the concrete store the engines are placed at the two
symmetric offsets. -/
theorem engine_placement_witness :
    (aircraftSpan8.engines.model).isSome = true
    ∧ enginePlacements aircraftSpan8
        = [{ x := 0, y := 0, z := wingSpanOf aircraftSpan8 / 2 * (6/10) },
           { x := 0, y := 0, z := -(wingSpanOf aircraftSpan8 / 2 * (6/10)) }] :=
  ⟨rfl, (engine_placement aircraftSpan8).1 rfl⟩

/-! ## SolidWorks add-in engine generation (src/unnamed/part_012) -/

/-- Parameters extracted by the add-in LLM service (src/unnamed/part_008). -/
structure AirplaneParameters where
  Wingspan : ℚ
  FuselageLength : ℚ
  FuselageRadius : ℚ
  TailHeight : ℚ
  EngineCount : ℤ
  HasCanopy : Bool
  NoseLength : ℚ
  WingSweepAngle : ℚ
  deriving DecidableEq, Repr

/-- Arguments of one CreateEngine call: sketch circle center (x, y, z) and
the engine cylinder radius and length, all in millimeters. -/
structure EnginePlacement where
  x : ℚ
  y : ℚ
  z : ℚ
  radius : ℚ
  length : ℚ
  deriving DecidableEq, Repr

/-- CreateEngines from src/unnamed/part_012 lines 278-302: returns early for
EngineCount 0, creates two engines at ±20% of wingspan for count 2, four at
±15% and ±35% (outer pair shifted 500 mm aft) for count 4, and silently does
nothing for every other count.  Dimensions are in millimeters
(MetersToMillimeters = 1000). -/
def CreateEngines (p : AirplaneParameters) : List EnginePlacement :=
  if p.EngineCount = 0 then []
  else
    let engineRadius := p.FuselageRadius * 1000 * (35/100)
    let engineLength := p.FuselageLength * 1000 * (2/10)
    let enginePosition := p.FuselageLength * 1000 * (35/100)
    if p.EngineCount = 2 then
      let engineY := p.Wingspan * 1000 * (2/10)
      [{ x := enginePosition, y := engineY, z := -engineRadius * (3/2),
          radius := engineRadius, length := engineLength },
       { x := enginePosition, y := -engineY, z := -engineRadius * (3/2),
          radius := engineRadius, length := engineLength }]
    else if p.EngineCount = 4 then
      let innerY := p.Wingspan * 1000 * (15/100)
      let outerY := p.Wingspan * 1000 * (35/100)
      [{ x := enginePosition, y := innerY, z := -engineRadius * (3/2),
          radius := engineRadius, length := engineLength },
       { x := enginePosition, y := -innerY, z := -engineRadius * (3/2),
          radius := engineRadius, length := engineLength },
       { x := enginePosition - 500, y := outerY, z := -engineRadius * (3/2),
          radius := engineRadius, length := engineLength },
       { x := enginePosition - 500, y := -outerY, z := -engineRadius * (3/2),
          radius := engineRadius, length := engineLength }]
    else []

/-- C10: engine geometry is created only for EngineCount exactly 2 (two
engines at ±20% of wingspan) or exactly 4 (four engines at ±15% and ±35% of
wingspan); every other count, including 0, 1 and 3, yields no engine
geometry and no error. -/
theorem CreateEngines_cases (p : AirplaneParameters) :
    (p.EngineCount = 2 →
      (CreateEngines p).map EnginePlacement.y
        = [p.Wingspan * 1000 * (2/10), -(p.Wingspan * 1000 * (2/10))])
    ∧ (p.EngineCount = 4 →
      (CreateEngines p).map EnginePlacement.y
        = [p.Wingspan * 1000 * (15/100), -(p.Wingspan * 1000 * (15/100)),
           p.Wingspan * 1000 * (35/100), -(p.Wingspan * 1000 * (35/100))])
    ∧ (p.EngineCount ≠ 2 → p.EngineCount ≠ 4 → CreateEngines p = []) := by
  refine ⟨?_, ?_, ?_⟩
  · intro h
    rw [CreateEngines, if_neg (by omega), if_pos h]
    rfl
  · intro h
    rw [CreateEngines, if_neg (by omega), if_neg (by omega), if_pos h]
    rfl
  · intro h2 h4
    rw [CreateEngines]
    by_cases h0 : p.EngineCount = 0
    · rw [if_pos h0]
    · rw [if_neg h0, if_neg h2, if_neg h4]

/-- A twin-engine airplane parameter set. -/
def twinEngineParams : AirplaneParameters :=
  { Wingspan := 10
    FuselageLength := 8
    FuselageRadius := 3/5
    TailHeight := 5/2
    EngineCount := 2
    HasCanopy := true
    NoseLength := 2
    WingSweepAngle := 25 }

/-- Witness for C10: the twin-engine set places engines at y = ±2000 mm and
the same set with a count of 3 places none. -/
theorem CreateEngines_cases_witness :
    ((CreateEngines twinEngineParams).map EnginePlacement.y
      = [(10:ℚ) * 1000 * (2/10), -((10:ℚ) * 1000 * (2/10))])
    ∧ CreateEngines { twinEngineParams with EngineCount := 3 } = [] :=
  ⟨(CreateEngines_cases twinEngineParams).1 rfl,
    (CreateEngines_cases { twinEngineParams with EngineCount := 3 }).2.2
      (by decide) (by decide)⟩

/-! ## Binary STL serialization (C6)

Modelled from the spec (§4.4): the backend export service
(`export_service.py`) is absent from the source tree.  Binary STL uses the
standard layout — an 80-byte header, a little-endian uint32 triangle count,
then 50 bytes per triangle: a 12-byte face normal, three 12-byte vertices
and a 2-byte attribute word, each float a little-endian IEEE-754 binary32.
The codec below implements binary32 quantization over the rationals (round
half up at the precision boundary; infinity/NaN payloads decode to 0); the
face normal is written as the unnormalized cross product, since rescaling
it to unit length is transcendental and the normal is not read back by the
round-trip claim. -/

/-- Magnitude bit pattern (exponent and fraction fields) of the binary32
value nearest to `y ≥ 0`: subnormal encoding below `2^(-126)`, otherwise
biased exponent `log2 + 1` with a 24-bit rounded significand; significand
overflow carries into the exponent field, exponent overflow gives the
infinity pattern. -/
def f32magWord (y : ℚ) : ℕ :=
  if (⌊y * 2^126⌋).toNat = 0 then (round (y * 2^149)).toNat
  else if 254 < (⌊y * 2^126⌋).toNat.log2 + 1 then 255 * 2^23
  else ((⌊y * 2^126⌋).toNat.log2 + 1) * 2^23
    + ((round (y * 2^150 / 2^((⌊y * 2^126⌋).toNat.log2 + 1))).toNat - 2^23)

/-- Full 32-bit binary32 pattern of the value nearest to `x`. -/
def f32enc (x : ℚ) : ℕ :=
  (if x < 0 then 1 else 0) * 2^31 + f32magWord |x|

/-- Rational value of a 31-bit magnitude pattern (subnormals for a zero
exponent field, 0 for the infinity/NaN exponent 255). -/
def f32magVal (K : ℕ) : ℚ :=
  if K / 2^23 = 0 then ((K % 2^23 : ℕ) : ℚ) / 2^149
  else if 255 ≤ K / 2^23 then 0
  else ((2^23 + K % 2^23 : ℕ) : ℚ) * (2:ℚ)^(K / 2^23) / 2^150

/-- Rational value of a 32-bit binary32 pattern. -/
def f32dec (w : ℕ) : ℚ :=
  if w / 2^31 % 2 = 1 then -f32magVal (w % 2^31) else f32magVal (w % 2^31)

/-- Little-endian 4-byte encoding of a 32-bit word. -/
def le4 (w : ℕ) : List ℕ :=
  [w % 2^8, w / 2^8 % 2^8, w / 2^16 % 2^8, w / 2^24 % 2^8]

/-- Little-endian 32-bit read from the front of a byte list. -/
def read4 (bs : List ℕ) : ℕ :=
  bs.getD 0 0 + 2^8 * bs.getD 1 0 + 2^16 * bs.getD 2 0 + 2^24 * bs.getD 3 0

/-- Bytes of one binary32 float. -/
def f32bytes (x : ℚ) : List ℕ := le4 (f32enc x)

/-- Bytes of one vertex: three little-endian floats. -/
def vec3bytes (v : Vec3) : List ℕ := f32bytes v.x ++ f32bytes v.y ++ f32bytes v.z

/-- Vertex lookup with the zero default, as the writer dereferences the
index buffer. -/
def vertexAt (m : Mesh) (i : ℕ) : Vec3 := m.vertices.getD i { x := 0, y := 0, z := 0 }

/-- Unnormalized face normal: cross product of the two edge vectors. -/
def faceNormal (a b c : Vec3) : Vec3 :=
  { x := (b.y - a.y) * (c.z - a.z) - (b.z - a.z) * (c.y - a.y)
    y := (b.z - a.z) * (c.x - a.x) - (b.x - a.x) * (c.z - a.z)
    z := (b.x - a.x) * (c.y - a.y) - (b.y - a.y) * (c.x - a.x) }

/-- The 50 bytes of one STL facet record. -/
def triBytes (a b c : Vec3) : List ℕ :=
  vec3bytes (faceNormal a b c) ++ vec3bytes a ++ vec3bytes b ++ vec3bytes c ++ [0, 0]

/-- Dereferenced corner vertices of one index triangle. -/
def derefTri (m : Mesh) (t : ℕ × ℕ × ℕ) : Vec3 × Vec3 × Vec3 :=
  (vertexAt m t.1, vertexAt m t.2.1, vertexAt m t.2.2)

/-- Binary STL serialization of a mesh. -/
def stlBytes (m : Mesh) : List ℕ :=
  List.replicate 80 0 ++ le4 m.triangles.length
    ++ m.triangles.flatMap fun t =>
        triBytes (derefTri m t).1 (derefTri m t).2.1 (derefTri m t).2.2

/-- Read one vertex from the front of a byte list. -/
def readVec3 (bs : List ℕ) : Vec3 :=
  { x := f32dec (read4 bs)
    y := f32dec (read4 (bs.drop 4))
    z := f32dec (read4 (bs.drop 8)) }

/-- Parse `c` facet records, 50 bytes each, skipping normal and attribute. -/
def parseTris : ℕ → List ℕ → Option (List (Vec3 × Vec3 × Vec3))
  | 0, _ => some []
  | Nat.succ c, bs =>
      if bs.length < 50 then none
      else (parseTris c (bs.drop 50)).map fun rest =>
        (readVec3 (bs.drop 12), readVec3 (bs.drop 24), readVec3 (bs.drop 36)) :: rest

/-- Parse a binary STL byte stream: header, count, facet records. -/
def parseSTL (bytes : List ℕ) : Option (ℕ × List (Vec3 × Vec3 × Vec3)) :=
  if bytes.length < 84 then none
  else (parseTris (read4 (bytes.drop 80)) (bytes.drop 84)).map fun ts =>
    (read4 (bytes.drop 80), ts)

/-- Binary32 quantization of one vertex. -/
def quantVec (v : Vec3) : Vec3 :=
  { x := f32dec (f32enc v.x), y := f32dec (f32enc v.y), z := f32dec (f32enc v.z) }

/-- Binary32 quantization of a dereferenced triangle. -/
def quantTri (t : Vec3 × Vec3 × Vec3) : Vec3 × Vec3 × Vec3 :=
  (quantVec t.1, quantVec t.2.1, quantVec t.2.2)

/-! Rounding bounds. -/

theorem round_le_of_lt {z : ℚ} {k : ℤ} (h : z < (k : ℚ)) : round z ≤ k := by
  have h2 := abs_le.mp (abs_sub_round z)
  have h3 : (round z : ℚ) ≤ z + 1/2 := by linarith [h2.1]
  have h4 : (round z : ℚ) < (k : ℚ) + 1 := by linarith
  have h5 : round z < k + 1 := by exact_mod_cast h4
  omega

theorem le_round_of_le {z : ℚ} {k : ℤ} (h : (k : ℚ) ≤ z) : k ≤ round z := by
  have h2 := abs_le.mp (abs_sub_round z)
  have h3 : z - 1/2 ≤ (round z : ℚ) := by linarith [h2.2]
  have h4 : (k : ℚ) - 1 < (round z : ℚ) := by linarith
  have h5 : k - 1 < round z := by exact_mod_cast h4
  omega

theorem round_nonneg_of_nonneg {z : ℚ} (h : 0 ≤ z) : 0 ≤ round z :=
  le_round_of_le (by exact_mod_cast h)

/-! Bounds used by both branches of the encoder. -/

theorem f32_floor_nonneg {y : ℚ} (h0 : 0 ≤ y) : 0 ≤ ⌊y * 2^126⌋ :=
  Int.floor_nonneg.mpr (by positivity)

theorem f32_subnormal_lt {y : ℚ} (h0 : 0 ≤ y)
    (hn : (⌊y * 2^126⌋).toNat = 0) : y * 2^126 < 1 := by
  have hfnn := f32_floor_nonneg h0
  have hfloor : ⌊y * 2^126⌋ = 0 := by omega
  have h := Int.lt_floor_add_one (y * 2^126)
  rw [hfloor] at h
  simpa using h

theorem f32_scale_lower {y : ℚ} (h0 : 0 ≤ y)
    (hn : (⌊y * 2^126⌋).toNat ≠ 0) :
    (2:ℚ)^((⌊y * 2^126⌋).toNat.log2) ≤ y * 2^126 := by
  have hfnn := f32_floor_nonneg h0
  have h1 : (2:ℕ)^((⌊y * 2^126⌋).toNat.log2) ≤ (⌊y * 2^126⌋).toNat :=
    Nat.log2_self_le hn
  have h2 : (((⌊y * 2^126⌋).toNat : ℤ) : ℚ) ≤ y * 2^126 := by
    rw [Int.toNat_of_nonneg hfnn]
    exact Int.floor_le _
  calc (2:ℚ)^((⌊y * 2^126⌋).toNat.log2)
      ≤ (((⌊y * 2^126⌋).toNat : ℤ) : ℚ) := by exact_mod_cast h1
    _ ≤ y * 2^126 := h2

theorem f32_scale_upper {y : ℚ} (h0 : 0 ≤ y) :
    y * 2^126 < (2:ℚ)^((⌊y * 2^126⌋).toNat.log2 + 1) := by
  have hfnn := f32_floor_nonneg h0
  have h1 : (⌊y * 2^126⌋).toNat < 2^((⌊y * 2^126⌋).toNat.log2 + 1) :=
    Nat.lt_log2_self
  have h2 : y * 2^126 < (((⌊y * 2^126⌋).toNat : ℤ) : ℚ) + 1 := by
    rw [Int.toNat_of_nonneg hfnn]
    exact Int.lt_floor_add_one _
  have h3 : ((((⌊y * 2^126⌋).toNat : ℕ) + 1 : ℕ) : ℚ)
      ≤ ((2^((⌊y * 2^126⌋).toNat.log2 + 1) : ℕ) : ℚ) := by
    exact_mod_cast Nat.succ_le_of_lt h1
  push_cast at h2 h3
  linarith

theorem f32_z_lower {y : ℚ} (h0 : 0 ≤ y) (hn : (⌊y * 2^126⌋).toNat ≠ 0) :
    (2:ℚ)^23 ≤ y * 2^150 / 2^((⌊y * 2^126⌋).toNat.log2 + 1) := by
  have hb := f32_scale_lower h0 hn
  have hpos : (0:ℚ) < 2^((⌊y * 2^126⌋).toNat.log2 + 1) := by positivity
  rw [le_div_iff hpos]
  have hkey : (2:ℚ)^23 * 2^((⌊y * 2^126⌋).toNat.log2 + 1)
      = (2:ℚ)^((⌊y * 2^126⌋).toNat.log2) * 2^24 := by
    rw [← pow_add, ← pow_add]
    congr 1
    omega
  rw [hkey]
  have h150 : (y * 2^150) = (y * 2^126) * 2^24 := by
    rw [show (2:ℚ)^150 = 2^126 * 2^24 from by rw [← pow_add]]
    ring
  rw [h150]
  nlinarith [hb]

theorem f32_z_upper {y : ℚ} (h0 : 0 ≤ y) :
    y * 2^150 / 2^((⌊y * 2^126⌋).toNat.log2 + 1) < (2:ℚ)^24 := by
  have hb := f32_scale_upper h0
  have hpos : (0:ℚ) < 2^((⌊y * 2^126⌋).toNat.log2 + 1) := by positivity
  rw [div_lt_iff hpos]
  have h150 : (y * 2^150) = (y * 2^126) * 2^24 := by
    rw [show (2:ℚ)^150 = 2^126 * 2^24 from by rw [← pow_add]]
    ring
  rw [h150]
  nlinarith [hb]

theorem f32_m_le {y : ℚ} (h0 : 0 ≤ y) (hn : (⌊y * 2^126⌋).toNat ≠ 0) :
    round (y * 2^150 / 2^((⌊y * 2^126⌋).toNat.log2 + 1)) ≤ 2^24 := by
  have h := f32_z_upper h0
  exact round_le_of_lt (by exact_mod_cast h)

theorem f32_m_ge {y : ℚ} (h0 : 0 ≤ y) (hn : (⌊y * 2^126⌋).toNat ≠ 0) :
    (2^23 : ℤ) ≤ round (y * 2^150 / 2^((⌊y * 2^126⌋).toNat.log2 + 1)) := by
  have h := f32_z_lower h0 hn
  exact le_round_of_le (by exact_mod_cast h)

theorem f32_subnormal_m_le {y : ℚ} (h0 : 0 ≤ y)
    (hn : (⌊y * 2^126⌋).toNat = 0) : round (y * 2^149) ≤ 2^23 := by
  have hlt := f32_subnormal_lt h0 hn
  have hz : y * 2^149 < (2:ℚ)^23 := by
    have h149 : (y * 2^149) = (y * 2^126) * 2^23 := by
      rw [show (2:ℚ)^149 = 2^126 * 2^23 from by rw [← pow_add]]
      ring
    rw [h149]
    nlinarith
  exact round_le_of_lt (by exact_mod_cast hz)

theorem f32magWord_le {y : ℚ} (h0 : 0 ≤ y) : f32magWord y ≤ 255 * 2^23 := by
  rw [f32magWord]
  split_ifs with h1 h2
  · have hm := f32_subnormal_m_le h0 h1
    have hm0 := round_nonneg_of_nonneg (z := y * 2^149) (by positivity)
    omega
  · omega
  · have hm := f32_m_le h0 h1
    have hm0 := round_nonneg_of_nonneg
      (z := y * 2^150 / 2^((⌊y * 2^126⌋).toNat.log2 + 1)) (by positivity)
    omega

theorem f32magWord_lt {y : ℚ} (h0 : 0 ≤ y) : f32magWord y < 2^31 := by
  have := f32magWord_le h0
  omega

theorem f32enc_lt (x : ℚ) : f32enc x < 2^32 := by
  rw [f32enc]
  have := f32magWord_lt (abs_nonneg x)
  split <;> omega

theorem drop_append_left {α : Type} (l₁ l₂ : List α) (k : ℕ) (h : l₁.length = k) :
    (l₁ ++ l₂).drop k = l₂ := by
  subst h
  exact List.drop_left l₁ l₂

theorem read4_le4 {w : ℕ} (hw : w < 2^32) (rest : List ℕ) :
    read4 (le4 w ++ rest) = w := by
  simp only [le4, read4, List.cons_append, List.nil_append,
    List.getD_cons_zero, List.getD_cons_succ]
  omega

theorem triBytes_length (a b c : Vec3) : (triBytes a b c).length = 50 := rfl

/-! Evaluating the decoder on the two word shapes the encoder emits. -/

theorem f32magVal_subnormal (d : ℕ) (hd : d < 2^23) :
    f32magVal d = ((d : ℕ) : ℚ) / 2^149 := by
  have h1 : d / 2^23 = 0 := by omega
  have h2 : d % 2^23 = d := by omega
  rw [f32magVal, h1, h2, if_pos rfl]

theorem f32magVal_normal (E d : ℕ) (hE1 : 1 ≤ E) (hE2 : E ≤ 254) (hd : d < 2^23) :
    f32magVal (E * 2^23 + d) = ((2^23 + d : ℕ) : ℚ) * (2:ℚ)^E / 2^150 := by
  have h1 : (E * 2^23 + d) / 2^23 = E := by omega
  have h2 : (E * 2^23 + d) % 2^23 = d := by omega
  rw [f32magVal, h1, h2, if_neg (by omega), if_neg (by omega)]

/-- Decoding the normal-form word the encoder produces recovers the rounded
significand scaled back, within half an ulp of the exponent window. -/
theorem f32_normal_decode (y : ℚ) (E : ℕ) (hE1 : 1 ≤ E) (hE : E ≤ 134)
    (hm1 : (2^23 : ℤ) ≤ round (y * 2^150 / 2^E))
    (hm2 : round (y * 2^150 / 2^E) ≤ 2^24) :
    |f32magVal (E * 2^23 + ((round (y * 2^150 / 2^E)).toNat - 2^23)) - y| ≤ 1/2^17 := by
  have hmt1 : 2^23 ≤ (round (y * 2^150 / 2^E)).toNat := by omega
  have hmt2 : (round (y * 2^150 / 2^E)).toNat ≤ 2^24 := by omega
  have hnn : (0:ℤ) ≤ round (y * 2^150 / 2^E) := by omega
  have hmcast : (((round (y * 2^150 / 2^E)).toNat : ℕ) : ℚ)
      = ((round (y * 2^150 / 2^E) : ℤ) : ℚ) := by
    exact_mod_cast congrArg Int.cast (Int.toNat_of_nonneg hnn)
  have hval : f32magVal (E * 2^23 + ((round (y * 2^150 / 2^E)).toNat - 2^23))
      = (((round (y * 2^150 / 2^E)).toNat : ℕ) : ℚ) * (2:ℚ)^E / 2^150 := by
    by_cases hcar : (round (y * 2^150 / 2^E)).toNat = 2^24
    · rw [show E * 2^23 + ((round (y * 2^150 / 2^E)).toNat - 2^23)
          = (E + 1) * 2^23 + 0 from by omega]
      rw [f32magVal_normal _ 0 (by omega) (by omega) (by omega), hcar]
      push_cast
      rw [pow_succ]
      ring
    · rw [f32magVal_normal _ _ (by omega) (by omega) (by omega)]
      rw [show 2^23 + ((round (y * 2^150 / 2^E)).toNat - 2^23)
          = (round (y * 2^150 / 2^E)).toNat from by omega]
  rw [hval, hmcast]
  have key : ((round (y * 2^150 / 2^E) : ℤ) : ℚ) * (2:ℚ)^E / 2^150 - y
      = (((round (y * 2^150 / 2^E) : ℤ) : ℚ) - y * 2^150 / 2^E)
        * (2:ℚ)^E / 2^150 := by
    have hp : ((2:ℚ)^E) ≠ 0 := by positivity
    field_simp
    ring
  rw [key, abs_div, abs_mul]
  have h150 : |(2:ℚ)^150| = 2^150 := by
    rw [abs_of_pos]
    positivity
  have hpE : |(2:ℚ)^E| = (2:ℚ)^E := by
    rw [abs_of_pos]
    positivity
  rw [h150, hpE]
  have herr : |((round (y * 2^150 / 2^E) : ℤ) : ℚ) - y * 2^150 / 2^E| ≤ 1/2 := by
    rw [abs_sub_comm]
    exact abs_sub_round _
  have hEpow : (2:ℚ)^E ≤ 2^134 := pow_le_pow_right (by norm_num) hE
  calc |((round (y * 2^150 / 2^E) : ℤ) : ℚ) - y * 2^150 / 2^E| * (2:ℚ)^E / 2^150
      ≤ (1/2) * 2^134 / 2^150 := by gcongr
    _ ≤ 1 / 2^17 := by norm_num

/-- Quantization error of the magnitude codec: below `256` the rounded
binary32 magnitude is within half an ulp, and in particular within
`2^(-17)`, of the original value. -/
theorem f32mag_round_trip {y : ℚ} (h0 : 0 ≤ y) (hy : y < 256) :
    |f32magVal (f32magWord y) - y| ≤ 1 / 2^17 := by
  by_cases hn : (⌊y * 2^126⌋).toNat = 0
  · have hm := f32_subnormal_m_le h0 hn
    have hm0 := round_nonneg_of_nonneg (z := y * 2^149) (by positivity)
    have habs := abs_le.mp (abs_sub_round (y * 2^149))
    rw [f32magWord, if_pos hn]
    by_cases hsm : (round (y * 2^149)).toNat = 2^23
    · have hmz : round (y * 2^149) = 2^23 := by omega
      have hmzq : ((round (y * 2^149) : ℤ) : ℚ) = 2^23 := by rw [hmz]; norm_num
      rw [hmzq] at habs
      have hval : f32magVal (round (y * 2^149)).toNat
          = ((2^23 + 0 : ℕ) : ℚ) * (2:ℚ)^1 / 2^150 := by
        rw [hsm, show (2^23 : ℕ) = 1 * 2^23 + 0 from by omega]
        exact f32magVal_normal 1 0 (by omega) (by omega) (by omega)
      rw [hval]
      have key : ((2^23 + 0 : ℕ) : ℚ) * (2:ℚ)^1 / 2^150 - y
          = ((2:ℚ)^23 - y * 2^149) / 2^149 := by
        push_cast
        field_simp
        ring
      rw [key, abs_div]
      have h149 : |(2:ℚ)^149| = 2^149 := by
        rw [abs_of_pos]
        positivity
      rw [h149]
      have herr : |(2:ℚ)^23 - y * 2^149| ≤ 1/2 := by
        rw [abs_le]
        constructor <;> linarith [habs.1, habs.2]
      calc |(2:ℚ)^23 - y * 2^149| / 2^149 ≤ (1/2) / 2^149 := by gcongr
        _ ≤ 1 / 2^17 := by norm_num
    · have hlt : (round (y * 2^149)).toNat < 2^23 := by omega
      rw [f32magVal_subnormal _ hlt]
      have hcast : (((round (y * 2^149)).toNat : ℕ) : ℚ)
          = ((round (y * 2^149) : ℤ) : ℚ) := by
        exact_mod_cast congrArg Int.cast (Int.toNat_of_nonneg hm0)
      rw [hcast]
      have key : ((round (y * 2^149) : ℤ) : ℚ) / 2^149 - y
          = (((round (y * 2^149) : ℤ) : ℚ) - y * 2^149) / 2^149 := by
        field_simp
        ring
      rw [key, abs_div]
      have h149 : |(2:ℚ)^149| = 2^149 := by
        rw [abs_of_pos]
        positivity
      rw [h149]
      have herr : |((round (y * 2^149) : ℤ) : ℚ) - y * 2^149| ≤ 1/2 := by
        rw [abs_sub_comm]
        exact abs_sub_round _
      calc |((round (y * 2^149) : ℤ) : ℚ) - y * 2^149| / 2^149
          ≤ (1/2) / 2^149 := by gcongr
        _ ≤ 1 / 2^17 := by norm_num
  · have hm1 := f32_m_ge h0 hn
    have hm2 := f32_m_le h0 hn
    have hfl : ⌊y * 2^126⌋ < 2^134 := by
      apply Int.floor_lt.mpr
      have h1 : y * 2^126 < 256 * 2^126 := by
        have := mul_lt_mul_of_pos_right hy (by positivity : (0:ℚ) < 2^126)
        linarith
      have h2 : ((2^134 : ℤ) : ℚ) = 256 * 2^126 := by norm_num
      linarith [h2 ▸ h1]
    have hnlt : (⌊y * 2^126⌋).toNat < 2^134 := by omega
    have hlog : (⌊y * 2^126⌋).toNat.log2 < 134 := (Nat.log2_lt hn).mpr hnlt
    have hE : (⌊y * 2^126⌋).toNat.log2 + 1 ≤ 134 := by omega
    rw [f32magWord, if_neg hn, if_neg (by omega)]
    exact f32_normal_decode y _ (by omega) hE hm1 hm2

/-- Quantization error of the full signed codec below magnitude `256`. -/
theorem f32_round_trip {x : ℚ} (hx : |x| < 256) :
    |f32dec (f32enc x) - x| ≤ 1 / 2^17 := by
  have hmag := f32mag_round_trip (abs_nonneg x) hx
  have hlt := f32magWord_lt (abs_nonneg x)
  rw [f32enc, f32dec]
  by_cases hneg : x < 0
  · rw [if_pos hneg]
    have h1 : (1 * 2^31 + f32magWord |x|) / 2^31 % 2 = 1 := by omega
    have h2 : (1 * 2^31 + f32magWord |x|) % 2^31 = f32magWord |x| := by omega
    rw [h1, h2, if_pos rfl]
    have hflip : -f32magVal (f32magWord |x|) - x
        = -(f32magVal (f32magWord |x|) - |x|) := by
      rw [abs_of_neg hneg]
      ring
    rw [hflip, abs_neg]
    exact hmag
  · rw [if_neg hneg]
    have h1 : (0 * 2^31 + f32magWord |x|) / 2^31 % 2 = 0 := by omega
    have h2 : (0 * 2^31 + f32magWord |x|) % 2^31 = f32magWord |x| := by omega
    rw [h1, h2, if_neg (by omega)]
    rw [abs_of_nonneg (not_lt.mp hneg)] at hmag ⊢
    exact hmag

/-! Structural round trip of the serialized byte stream. -/

theorem readVec3_vec3bytes (v : Vec3) (rest : List ℕ) :
    readVec3 (vec3bytes v ++ rest) = quantVec v := by
  have hx := f32enc_lt v.x
  have hy := f32enc_lt v.y
  have hz := f32enc_lt v.z
  have e : vec3bytes v ++ rest
      = le4 (f32enc v.x) ++ (le4 (f32enc v.y) ++ (le4 (f32enc v.z) ++ rest)) := by
    simp [vec3bytes, f32bytes, List.append_assoc]
  rw [e]
  have h4 : (le4 (f32enc v.x)).length = 4 := rfl
  have h8 : (le4 (f32enc v.x) ++ le4 (f32enc v.y)).length = 8 := rfl
  simp only [readVec3, quantVec, Vec3.mk.injEq]
  refine ⟨?_, ?_, ?_⟩
  · rw [read4_le4 hx]
  · rw [drop_append_left _ _ 4 h4, read4_le4 hy]
  · rw [← List.append_assoc, drop_append_left _ _ 8 h8, read4_le4 hz]

theorem parseTris_cons (a b c : Vec3) (k : ℕ) (rest : List ℕ)
    (ts : List (Vec3 × Vec3 × Vec3)) (h : parseTris k rest = some ts) :
    parseTris (k + 1) (triBytes a b c ++ rest)
      = some ((quantVec a, quantVec b, quantVec c) :: ts) := by
  have e12 : (triBytes a b c ++ rest).drop 12
      = vec3bytes a ++ (vec3bytes b ++ (vec3bytes c ++ ([0, 0] ++ rest))) := by
    have e : triBytes a b c ++ rest
        = vec3bytes (faceNormal a b c)
          ++ (vec3bytes a ++ (vec3bytes b ++ (vec3bytes c ++ ([0, 0] ++ rest)))) := by
      simp [triBytes, List.append_assoc]
    rw [e, drop_append_left (vec3bytes (faceNormal a b c)) _ 12 rfl]
  have e24 : (triBytes a b c ++ rest).drop 24
      = vec3bytes b ++ (vec3bytes c ++ ([0, 0] ++ rest)) := by
    have e : triBytes a b c ++ rest
        = (vec3bytes (faceNormal a b c) ++ vec3bytes a)
          ++ (vec3bytes b ++ (vec3bytes c ++ ([0, 0] ++ rest))) := by
      simp [triBytes, List.append_assoc]
    rw [e, drop_append_left (vec3bytes (faceNormal a b c) ++ vec3bytes a) _ 24 rfl]
  have e36 : (triBytes a b c ++ rest).drop 36
      = vec3bytes c ++ ([0, 0] ++ rest) := by
    have e : triBytes a b c ++ rest
        = ((vec3bytes (faceNormal a b c) ++ vec3bytes a) ++ vec3bytes b)
          ++ (vec3bytes c ++ ([0, 0] ++ rest)) := by
      simp [triBytes, List.append_assoc]
    rw [e, drop_append_left ((vec3bytes (faceNormal a b c) ++ vec3bytes a) ++ vec3bytes b) _ 36 rfl]
  simp only [parseTris]
  rw [if_neg (by rw [List.length_append, triBytes_length]; omega)]
  rw [drop_append_left _ _ 50 (triBytes_length a b c), h]
  rw [e12, e24, e36, readVec3_vec3bytes, readVec3_vec3bytes, readVec3_vec3bytes]
  rfl

theorem parseTris_flatMap (m : Mesh) (l : List (ℕ × ℕ × ℕ)) (rest : List ℕ) :
    parseTris l.length
      ((l.flatMap fun t =>
        triBytes (derefTri m t).1 (derefTri m t).2.1 (derefTri m t).2.2) ++ rest)
      = some (l.map fun t => quantTri (derefTri m t)) := by
  induction l with
  | nil => simp [parseTris]
  | cons t l ih =>
      rw [List.flatMap_cons, List.append_assoc, List.length_cons]
      rw [parseTris_cons _ _ _ _ _ _ ih]
      rfl

theorem flatMap_const_length {α : Type} (f : α → List ℕ) (k : ℕ)
    (hf : ∀ a, (f a).length = k) (l : List α) :
    (l.flatMap f).length = k * l.length := by
  induction l with
  | nil => simp
  | cons a l ih =>
      rw [List.flatMap_cons, List.length_append, List.length_cons, ih, hf a]
      ring

/-- One-triangle sample mesh with unit-scale coordinates. -/
def stlProbe : Mesh where
  vertices := [{ x := 0, y := 0, z := 0 }, { x := 1, y := 0, z := 0 },
    { x := 0, y := 1, z := 0 }]
  triangles := [(0, 1, 2)]

/-- C6 (amended): serializing a mesh whose triangle count fits in a uint32
and whose coordinates are below 256 in magnitude to binary STL (50 bytes
per facet after the 80-byte header and 4-byte count) and re-parsing the
bytes recovers the exact triangle count and the binary32-quantized
vertices, each quantized coordinate within `2^(-17) < 1e-5` of the
original; without the coordinate bound the 1e-5 tolerance fails. -/
theorem stl_round_trip (m : Mesh) (hc : m.triangles.length < 2^32)
    (hb : ∀ v ∈ m.vertices, |v.x| < 256 ∧ |v.y| < 256 ∧ |v.z| < 256) :
    (stlBytes m).length = 84 + 50 * m.triangles.length
    ∧ parseSTL (stlBytes m)
        = some (m.triangles.length, m.triangles.map fun t => quantTri (derefTri m t))
    ∧ (1 : ℚ) / 2^17 < 1/100000
    ∧ ∀ v ∈ m.vertices, |(quantVec v).x - v.x| ≤ 1/2^17
        ∧ |(quantVec v).y - v.y| ≤ 1/2^17 ∧ |(quantVec v).z - v.z| ≤ 1/2^17 := by
  have hfl : (m.triangles.flatMap fun t =>
      triBytes (derefTri m t).1 (derefTri m t).2.1 (derefTri m t).2.2).length
      = 50 * m.triangles.length :=
    flatMap_const_length _ 50 (fun t => triBytes_length _ _ _) _
  have hlen : (stlBytes m).length = 84 + 50 * m.triangles.length := by
    rw [stlBytes, List.length_append, List.length_append, hfl,
      List.length_replicate]
    rfl
  refine ⟨hlen, ?_, by norm_num, ?_⟩
  · have h80 : (stlBytes m).drop 80
        = le4 m.triangles.length ++ m.triangles.flatMap fun t =>
            triBytes (derefTri m t).1 (derefTri m t).2.1 (derefTri m t).2.2 := by
      have e : stlBytes m
          = List.replicate 80 (0:ℕ)
            ++ (le4 m.triangles.length ++ m.triangles.flatMap fun t =>
              triBytes (derefTri m t).1 (derefTri m t).2.1 (derefTri m t).2.2) := by
        simp [stlBytes, List.append_assoc]
      rw [e, drop_append_left _ _ 80 (List.length_replicate 80 0)]
    have h84 : (stlBytes m).drop 84
        = m.triangles.flatMap fun t =>
            triBytes (derefTri m t).1 (derefTri m t).2.1 (derefTri m t).2.2 := by
      rw [stlBytes]
      exact drop_append_left _ _ 84 (by simp [le4])
    rw [parseSTL, if_neg (by omega), h80, read4_le4 hc, h84]
    have hparse := parseTris_flatMap m m.triangles []
    rw [List.append_nil] at hparse
    rw [hparse]
    rfl
  · intro v hv
    obtain ⟨h1, h2, h3⟩ := hb v hv
    exact ⟨f32_round_trip h1, f32_round_trip h2, f32_round_trip h3⟩

/-- C6 witness: the round trip evaluated on a concrete one-triangle mesh. -/
theorem stl_round_trip_witness :
    (stlBytes stlProbe).length = 84 + 50 * stlProbe.triangles.length
    ∧ parseSTL (stlBytes stlProbe)
        = some (stlProbe.triangles.length,
            stlProbe.triangles.map fun t => quantTri (derefTri stlProbe t))
    ∧ (1 : ℚ) / 2^17 < 1/100000
    ∧ ∀ v ∈ stlProbe.vertices, |(quantVec v).x - v.x| ≤ 1/2^17
        ∧ |(quantVec v).y - v.y| ≤ 1/2^17 ∧ |(quantVec v).z - v.z| ≤ 1/2^17 :=
  stl_round_trip stlProbe (by norm_num [stlProbe])
    (by
      intro v hv
      simp only [stlProbe, List.mem_cons, List.not_mem_nil, or_false] at hv
      rcases hv with h | h | h <;> subst h <;> norm_num)

/-- Evaluation rule for the normal branch of the encoder, phrased over
precomputed log and rounding values so concrete instances stay small. -/
theorem f32magWord_eval (y : ℚ) (L : ℕ) (r : ℤ)
    (hn : (⌊y * 2^126⌋).toNat ≠ 0)
    (hlog : (⌊y * 2^126⌋).toNat.log2 = L)
    (hE : L + 1 ≤ 254)
    (hr : round (y * 2^150 / 2^(L + 1)) = r) :
    f32magWord y = (L + 1) * 2^23 + (r.toNat - 2^23) := by
  rw [f32magWord, if_neg hn, hlog, if_neg (by omega), hr]

/-- C6 counterexample: the unqualified 1e-5 tolerance fails at coordinate
`2^26 + 1`, which binary32 quantizes to `2^26`, an absolute error of 1. -/
theorem stl_tolerance_counterexample :
    f32dec (f32enc (2^26 + 1 : ℚ)) = 2^26
    ∧ ¬ |f32dec (f32enc (2^26 + 1 : ℚ)) - (2^26 + 1 : ℚ)| ≤ 1/100000 := by
  have henc : f32enc (2^26 + 1 : ℚ) = 153 * 2^23 := by
    have hfloor : ⌊(2^26 + 1 : ℚ) * 2^126⌋ = 67108865 * 2^126 := by
      have h3 : ((2^26 + 1 : ℚ) * 2^126) = ((67108865 * 2^126 : ℤ) : ℚ) := by
        norm_num
      rw [h3, Int.floor_intCast]
    have htn : (⌊(2^26 + 1 : ℚ) * 2^126⌋).toNat = 67108865 * 2^126 := by
      rw [hfloor]
      omega
    have hn : (⌊(2^26 + 1 : ℚ) * 2^126⌋).toNat ≠ 0 := by
      rw [htn]
      norm_num
    have hlog : (⌊(2^26 + 1 : ℚ) * 2^126⌋).toNat.log2 = 152 := by
      rw [htn, Nat.log2_eq_log_two]
      exact Nat.log_eq_of_pow_le_of_lt_pow (by norm_num) (by norm_num)
    have hr : round ((2^26 + 1 : ℚ) * 2^150 / 2^(152 + 1)) = 8388608 := by
      have h6 : ((2^26 + 1 : ℚ) * 2^150 / 2^(152 + 1)) = 67108865 / 8 := by
        norm_num
      rw [h6, round_eq]
      norm_num
    have hmag := f32magWord_eval (2^26 + 1 : ℚ) 152 8388608 hn hlog (by norm_num) hr
    have habs : |(2^26 + 1 : ℚ)| = 2^26 + 1 := abs_of_nonneg (by positivity)
    rw [f32enc, if_neg (by norm_num), habs, hmag]
    omega
  have hdec : f32dec (153 * 2^23) = 2^26 := by
    have hval : f32magVal (153 * 2^23 + 0)
        = ((2^23 + 0 : ℕ) : ℚ) * (2:ℚ)^153 / 2^150 :=
      f32magVal_normal 153 0 (by norm_num) (by norm_num) (by norm_num)
    have h8 : (153 * 2^23 : ℕ) % 2^31 = 153 * 2^23 + 0 := by norm_num
    rw [f32dec, if_neg (by norm_num), h8, hval]
    push_cast
    norm_num
  rw [henc, hdec]
  refine ⟨by norm_num, by norm_num⟩

end Aero
